import Mathlib

/-!
# aws-cost-reporter: a verification development for `main.go`

The program fetches Cost Explorer data for the previous and the current month
(`getCostData`), applies a percentage markup, aggregates per service and prints
a text report (`processAndDisplayResults`), driven by `main`.

The development has three layers.

* `F64`: Go's `float64`, i.e. IEEE-754 binary64 with round-to-nearest-even and
  one NaN; `x += a * b` is either a rounded product followed by a rounded sum
  or one fused multiply-add, as the Go specification leaves to the compiler.
* `GoRuntime`: what the program relies on but does not define
  (`strconv.ParseFloat`, the iteration order of `range` over a map,
  `sort.Slice`, whether the compiler fuses the two multiply-adds), taken as a
  parameter together with the contract the Go documentation gives for it.
* The three functions of `main.go`, translated statement by statement.
-/

/-! ## float64 -/

namespace F64

/-- Quotient `a / b` rounded to the nearest integer, ties to the even one. -/
def roundHalfEven (a b : Nat) : Nat :=
  let q := a / b
  let r := a % b
  if 2 * r < b then q else if b < 2 * r then q + 1 else if q % 2 = 0 then q else q + 1

/-- Worker of `bitLen`: halve `n` until it is zero, counting the steps. -/
def bitLenAux : Nat → Nat → Nat → Nat
  | 0, _, acc => acc
  | f + 1, n, acc => if n = 0 then acc else bitLenAux f (n / 2) (acc + 1)

/-- Number of binary digits of `n` (0 for 0). -/
def bitLen (n : Nat) : Nat := bitLenAux n n 0

/-- A finite binary64 value is `man * 2 ^ (exp - 1074)` up to sign, with a
53-bit significand; below the normal range (`exp = 0`) the significand may be
short, otherwise its top bit is set. The largest finite value has `exp = 2045`. -/
def Canonical (man exp : Nat) : Prop :=
  man < 2 ^ 53 ∧ exp ≤ 2045 ∧ (exp = 0 ∨ 2 ^ 52 ≤ man)

instance instDecidableCanonical (man exp : Nat) : Decidable (Canonical man exp) := by
  unfold Canonical; infer_instance

end F64

/-- Go's `float64`: not-a-number, the two infinities, and the finite values
`(-1) ^ neg * man * 2 ^ (exp - 1074)` (both zeros are `man = 0`). -/
inductive F64 where
  | nan
  | inf (neg : Bool)
  | fin (neg : Bool) (man exp : Nat) (ok : F64.Canonical man exp)
deriving DecidableEq

namespace F64

/-- The binary64 value nearest to `a / b` (`b ≠ 0`), ties to even, with the
given sign; a result beyond the largest finite value is an infinity. -/
def round (neg : Bool) (a b : Nat) : F64 :=
  let A := a * 2 ^ 1074
  let shift := bitLen (A / b) - 53
  let n := roundHalfEven A (b * 2 ^ shift)
  let m := if n = 2 ^ 53 then 2 ^ 52 else n
  let k := if n = 2 ^ 53 then shift + 1 else shift
  if h : Canonical m k then fin neg m k h else inf neg

/-- The constant `0.0`. -/
def zero : F64 := fin false 0 0 (by decide)

/-- The constant `1.0`. -/
def one : F64 := fin false (2 ^ 52) 1022 (by decide)

/-- The constant `100.0`. -/
def hundred : F64 := fin false (25 * 2 ^ 48) 1028 (by decide)

/-- Signed integer `(-1) ^ neg * n`. -/
def toInt (neg : Bool) (n : Nat) : Int := if neg then -(n : Int) else (n : Int)

/-- Float64 multiplication `x * y`. -/
def mul : F64 → F64 → F64
  | nan, _ => nan
  | _, nan => nan
  | inf s, inf t => inf (s != t)
  | inf s, fin t m _ _ => if m = 0 then nan else inf (s != t)
  | fin s m _ _, inf t => if m = 0 then nan else inf (s != t)
  | fin s m k _, fin t n l _ => round (s != t) (m * n * 2 ^ (k + l)) (2 ^ 2148)

/-- Float64 addition `x + y`. An exact zero sum is `-0` only when both
operands are negative. -/
def add : F64 → F64 → F64
  | nan, _ => nan
  | _, nan => nan
  | inf s, inf t => if s = t then inf s else nan
  | inf s, fin _ _ _ _ => inf s
  | fin _ _ _ _, inf t => inf t
  | fin s m k _, fin t n l _ =>
    let r := toInt s (m * 2 ^ k) + toInt t (n * 2 ^ l)
    if r = 0 then fin (s && t) 0 0 (by decide)
    else round (decide (r < 0)) r.natAbs (2 ^ 1074)

/-- Float64 division `x / y`; dividing by zero gives an infinity or NaN, it
does not fail. -/
def div : F64 → F64 → F64
  | nan, _ => nan
  | _, nan => nan
  | inf _, inf _ => nan
  | inf s, fin t _ _ _ => inf (s != t)
  | fin s _ _ _, inf t => fin (s != t) 0 0 (by decide)
  | fin s m k _, fin t n l _ =>
    if n = 0 then (if m = 0 then nan else inf (s != t))
    else round (s != t) (m * 2 ^ k) (n * 2 ^ l)

/-- The sum of an infinite product of sign `sp` and `c`. -/
def addInf (sp : Bool) : F64 → F64
  | nan => nan
  | inf u => if sp = u then inf sp else nan
  | fin _ _ _ _ => inf sp

/-- Fused multiply-add `a * b + c`: the exact product and sum, rounded once. -/
def fma : F64 → F64 → F64 → F64
  | nan, _, _ => nan
  | _, nan, _ => nan
  | _, _, nan => nan
  | inf s, inf t, c => addInf (s != t) c
  | inf s, fin t n _ _, c => if n = 0 then nan else addInf (s != t) c
  | fin s m _ _, inf t, c => if m = 0 then nan else addInf (s != t) c
  | fin _ _ _ _, fin _ _ _ _, inf u => inf u
  | fin s m k _, fin t n l _, fin u p q _ =>
    let r := toInt (s != t) (m * n * 2 ^ (k + l)) + toInt u (p * 2 ^ q * 2 ^ 1074)
    if r = 0 then fin ((s != t) && u) 0 0 (by decide)
    else round (decide (r < 0)) r.natAbs (2 ^ 2148)

/-- The statement `acc += a * b` as compiled: one fused multiply-add when the
compiler fuses it, the rounded product added to `acc` otherwise. -/
def mulAdd (fused : Bool) (acc a b : F64) : F64 :=
  if fused then fma a b acc else add acc (mul a b)

/-- Float64 comparison `x < y`: false whenever an operand is NaN, and the two
zeros compare equal. -/
def lt : F64 → F64 → Bool
  | nan, _ => false
  | _, nan => false
  | inf s, inf t => s && !t
  | inf s, fin _ _ _ _ => s
  | fin _ _ _ _, inf t => !t
  | fin s m k _, fin t n l _ => decide (toInt s (m * 2 ^ k) < toInt t (n * 2 ^ l))

/-- Float64 comparison `x > y`. -/
def gt (x y : F64) : Bool := lt y x

/-- Float64 comparison `x >= y`: false whenever an operand is NaN. -/
def ge : F64 → F64 → Bool
  | nan, _ => false
  | _, nan => false
  | x, y => !lt x y

/-- Whether the value is NaN. -/
def isNaN : F64 → Bool
  | nan => true
  | _ => false

/-- Two decimal digits of `n % 100`. -/
def twoDigits (n : Nat) : String :=
  toString (n / 10 % 10) ++ toString (n % 10)

/-- Hundredths shown by `%.2f` for the finite value `man * 2 ^ (exp - 1074)`:
the exact value times 100, rounded to the nearest integer, ties to even. -/
def cents (man exp : Nat) : Nat := roundHalfEven (man * 2 ^ exp * 100) (2 ^ 1074)

/-- The text `fmt` prints for the verb `%.2f`. -/
def fmt2 : F64 → String
  | nan => "NaN"
  | inf false => "+Inf"
  | inf true => "-Inf"
  | fin s m k _ =>
    (if s then "-" else "") ++ toString (cents m k / 100) ++ "." ++ twoDigits (cents m k)

/-- The number a `%.2f` text stands for, in hundredths; `none` for `NaN` and
the infinities. -/
def shown : F64 → Option Int
  | fin s m k _ => some (toInt s (cents m k))
  | _ => none

end F64

namespace CostReporter

/-! ## Library behaviour the program relies on -/

/-- What `main.go` uses without defining it: three library calls, and the
compiler's choice, left open by the Go specification, of fusing a
multiplication and an addition into one operation. -/
structure GoRuntime where
  /-- The call `strconv.ParseFloat(s, 64)`: `none` stands for a non-nil error. -/
  ParseFloat : String → Option F64
  /-- Order in which `for k, v := range m` visits the entries of a map; the
  argument lists the entries in the order their keys were first stored. -/
  mapRange : List (String × F64) → List (String × F64)
  /-- The call `sort.Slice(x, less)`, with `less` given on elements. -/
  sortSlice : (String × F64 → String × F64 → Bool) → List (String × F64) → List (String × F64)
  /-- Whether line 95, `totalCost += amount * markupMultiplier`, is compiled to
  one fused multiply-add. -/
  fuseTotal : Bool
  /-- Whether line 116, `serviceTotals[serviceName] += amount * markupMultiplier`,
  is compiled to one fused multiply-add. -/
  fuseService : Bool

/-- What the documentation of `sort.Slice` asks of `less` (a strict weak
ordering), restricted to the elements being sorted. -/
def StrictWeakOn (less : String × F64 → String × F64 → Bool) (l : List (String × F64)) : Prop :=
  (∀ a ∈ l, less a a = false) ∧
  (∀ a ∈ l, ∀ b ∈ l, ∀ c ∈ l, less a b = true → less b c = true → less a c = true) ∧
  (∀ a ∈ l, ∀ b ∈ l, ∀ c ∈ l, less a b = false → less b c = false → less a c = false)

/-- The contract of the library calls: `range` visits every entry of a map
exactly once, in some order; `sort.Slice` permutes its argument, and leaves it
ordered whenever `less` is a strict weak ordering of the elements. -/
structure GoRuntime.Lawful (rt : GoRuntime) : Prop where
  mapRange_perm : ∀ m, (rt.mapRange m).Perm m
  sortSlice_perm : ∀ less l, (rt.sortSlice less l).Perm l
  sortSlice_sorted : ∀ less l, StrictWeakOn less l →
    (rt.sortSlice less l).Pairwise (fun a b => less b a = false)

/-! ### A concrete runtime, for running the program on concrete inputs -/

/-- Value of a decimal digit. -/
def digitVal (c : Char) : Nat := c.toNat - 48

/-- Value of a string of decimal digits. -/
def digitsVal (cs : List Char) : Nat := cs.foldl (fun n c => 10 * n + digitVal c) 0

/-- ASCII lower case of a string. -/
def lowerAscii (cs : List Char) : List Char := cs.map Char.toLower

/-- The decimal number `mant * 10 ^ (e10 - fracLen)` as a float64; out of range
is the error `ErrRange` of `strconv`. -/
def decimalToF64 (neg : Bool) (mant : Nat) (e10 : Int) : Option F64 :=
  let r := if 0 ≤ e10 then F64.round neg (mant * 10 ^ e10.toNat) 1
           else F64.round neg mant (10 ^ (-e10).toNat)
  match r with
  | F64.inf _ => none
  | x => some x

/-- An optional decimal exponent part `e[+-]ddd`; `none` when malformed. -/
def parseExponent (cs : List Char) : Option Int :=
  match cs with
  | [] => some 0
  | c :: rest =>
    if c = 'e' ∨ c = 'E' then
      let (neg, ds) :=
        match rest with
        | '-' :: ds => (true, ds)
        | '+' :: ds => (false, ds)
        | ds => (false, ds)
      if ds ≠ [] ∧ ds.all Char.isDigit then
        some (if neg then -(digitsVal ds : Int) else (digitsVal ds : Int))
      else none
    else none

/-- An unsigned decimal literal `ddd[.ddd][e[+-]ddd]` with at least one digit. -/
def parseUnsigned (neg : Bool) (cs : List Char) : Option F64 :=
  let ip := cs.takeWhile Char.isDigit
  let r1 := cs.dropWhile Char.isDigit
  let (fp, r2) :=
    match r1 with
    | '.' :: r => (r.takeWhile Char.isDigit, r.dropWhile Char.isDigit)
    | r => ([], r)
  if ip = [] ∧ fp = [] then none
  else
    match parseExponent r2 with
    | none => none
    | some e => decimalToF64 neg (digitsVal (ip ++ fp)) (e - (fp.length : Int))

/-- The behaviour of `strconv.ParseFloat(s, 64)` on decimal literals and on the
special values `NaN`, `Inf`, `Infinity` (any case, the infinities optionally
signed): the nearest float64, ties to even. Hexadecimal literals and digit
separators, which the library also accepts, are not covered: this definition
answers `none` for them. It is used only to run the program on plain decimal
amounts; every general statement below is over an arbitrary `ParseFloat`. -/
def parseDecimal (s : String) : Option F64 :=
  let cs := s.toList
  let (neg, signed, body) :=
    match cs with
    | '-' :: r => (true, true, r)
    | '+' :: r => (false, true, r)
    | r => (false, false, r)
  let low := lowerAscii body
  if low = "inf".toList ∨ low = "infinity".toList then some (F64.inf neg)
  else if low = "nan".toList then (if signed then none else some F64.nan)
  else parseUnsigned neg body

/-- Insert `a` into a run kept in reverse order, moving it past every element
it is `less` than: the inner loop of insertion sort. -/
def insertBack (less : String × F64 → String × F64 → Bool) (a : String × F64) :
    List (String × F64) → List (String × F64)
  | [] => [a]
  | y :: rest => if less a y then y :: insertBack less a rest else a :: y :: rest

/-- Insertion sort as `sort.Slice` runs it on slices of at most 12 elements:
each element in turn is swapped towards the front while it is `less` than its
left neighbour. -/
def insertionSortLessFunc (less : String × F64 → String × F64 → Bool)
    (l : List (String × F64)) : List (String × F64) :=
  (l.foldl (fun run a => insertBack less a run) []).reverse

/-- A runtime for concrete runs: decimal `ParseFloat`, maps ranged in the order
of first insertion of their keys, insertion sort for `sort.Slice`, no fused
multiply-add (as on amd64). -/
def goRuntime : GoRuntime where
  ParseFloat := parseDecimal
  mapRange := fun m => m
  sortSlice := insertionSortLessFunc
  fuseTotal := false
  fuseService := false

/-- The same runtime with maps ranged in reverse order of insertion. -/
def goRuntimeRev : GoRuntime where
  ParseFloat := parseDecimal
  mapRange := List.reverse
  sortSlice := insertionSortLessFunc
  fuseTotal := false
  fuseService := false

/-- The same runtime with both multiply-adds fused (as on arm64). -/
def goRuntimeFused : GoRuntime where
  ParseFloat := parseDecimal
  mapRange := fun m => m
  sortSlice := insertionSortLessFunc
  fuseTotal := true
  fuseService := true

/-! ## Cost Explorer types (the fields `main.go` reads or writes)

A Go slice is a list (the nil slice is the empty list), a pointer is an
`Option`, a map with string keys is a list of key/value pairs read with
`List.lookup`. -/

/-- The enum `types.Granularity`. -/
inductive Granularity where
  | DAILY
  | MONTHLY
  | HOURLY
deriving DecidableEq, Repr

/-- The enum `types.GroupDefinitionType`. -/
inductive GroupDefinitionType where
  | DIMENSION
  | TAG
  | COST_CATEGORY
deriving DecidableEq, Repr

/-- The struct `types.GroupDefinition`. -/
structure GroupDefinition where
  Key : Option String
  Typ : GroupDefinitionType
deriving DecidableEq, Repr

/-- The struct `types.Expression`; the program only passes it on. -/
structure Expression where
  raw : String
deriving DecidableEq, Repr

/-- The struct `types.MetricValue`. -/
structure MetricValue where
  Amount : Option String
  Unit : Option String
deriving DecidableEq, Repr

/-- The struct `types.Group`. -/
structure Group where
  Keys : List String
  Metrics : List (String × MetricValue)
deriving DecidableEq, Repr

/-- The struct `types.DateInterval`. -/
structure DateInterval where
  Start : Option String
  End : Option String
deriving DecidableEq, Repr

/-- The struct `types.ResultByTime`. -/
structure ResultByTime where
  Estimated : Bool
  Groups : List Group
  TimePeriod : Option DateInterval
  Total : List (String × MetricValue)
deriving DecidableEq, Repr

/-- The struct `costexplorer.GetCostAndUsageInput`. -/
structure GetCostAndUsageInput where
  TimePeriod : Option DateInterval
  Granularity : Granularity
  Metrics : List String
  NextPageToken : Option String
  GroupBy : List GroupDefinition
  Filter : Option Expression
deriving DecidableEq, Repr

/-- The struct `costexplorer.GetCostAndUsageOutput`. -/
structure GetCostAndUsageOutput where
  ResultsByTime : List ResultByTime
  NextPageToken : Option String
deriving DecidableEq, Repr

/-- An error returned by the billing API call. -/
structure ApiError where
  msg : String
deriving DecidableEq, Repr

/-- The error built by `fmt.Errorf` with the verb `%w`: its text and the error
it wraps. -/
structure WrappedError where
  msg : String
  unwrap : ApiError
deriving DecidableEq, Repr

/-- The billing API as the program meets it in one run: the response to the
call number `k` (counted from 0 over the whole run). -/
abbrev Client := Nat → Except ApiError GetCostAndUsageOutput

/-- What the run has asked of the billing API so far: how many calls were
made and with which inputs, oldest first. -/
structure ApiState where
  next : Nat
  calls : List GetCostAndUsageInput
deriving DecidableEq, Repr

/-! ## Configuration (lines 18-25) -/

/-- The variable `reportGranularity`. -/
def reportGranularity : Granularity := Granularity.MONTHLY

/-- The variable `reportMetrics`. -/
def reportMetrics : List String := ["UnblendedCost"]

/-- The variable `reportGroupBy`. -/
def reportGroupBy : List GroupDefinition :=
  [{ Typ := GroupDefinitionType.DIMENSION, Key := some "SERVICE" }]

/-- The variable `reportFilter` (nil). -/
def reportFilter : Option Expression := none

/-- The variable `awsRegion`. -/
def awsRegion : String := "us-east-1"

/-! ## getCostData (lines 30-64) -/

/-- The request built on lines 35-49. -/
def getCostDataInput (startDate endDate : String) (granularity : Granularity)
    (metrics : List String) (groupBy : List GroupDefinition) (filter : Option Expression)
    (nextPageToken : Option String) : GetCostAndUsageInput :=
  { TimePeriod := some { Start := some startDate, End := some endDate }
    Granularity := granularity
    Metrics := metrics
    NextPageToken := nextPageToken
    GroupBy := if groupBy ≠ [] then groupBy else []
    Filter := match filter with
      | some f => some f
      | none => none }

/-- The error of line 53. -/
def fetchError (startDate endDate : String) (err : ApiError) : WrappedError :=
  { msg := "failed to get cost and usage for " ++ startDate ++ " to " ++ endDate ++ ": " ++ err.msg
    unwrap := err }

/-- The loop of lines 34-62, run for at most `fuel` iterations; `none` when
the loop is still running after that many. The second component is the API
state after the calls made. -/
def getCostDataLoop (client : Client) (startDate endDate : String) (granularity : Granularity)
    (metrics : List String) (groupBy : List GroupDefinition) (filter : Option Expression) :
    Nat → ApiState → List ResultByTime → Option String →
      Option (List ResultByTime × Option WrappedError) × ApiState
  | 0, st, _, _ => (none, st)
  | fuel + 1, st, allResults, nextPageToken =>
    let input := getCostDataInput startDate endDate granularity metrics groupBy filter nextPageToken
    let st1 : ApiState := { next := st.next + 1, calls := st.calls ++ [input] }
    match client st.next with
    | Except.error err => (some ([], some (fetchError startDate endDate err)), st1)
    | Except.ok output =>
      let allResults1 := allResults ++ output.ResultsByTime
      match output.NextPageToken with
      | none => (some (allResults1, none), st1)
      | some tok =>
        getCostDataLoop client startDate endDate granularity metrics groupBy filter
          fuel st1 allResults1 (some tok)

/-- The function `getCostData`: the pair it returns (results, error) when it
returns within `fuel` API calls, and the API state it leaves. -/
def getCostData (client : Client) (fuel : Nat) (st : ApiState) (startDate endDate : String)
    (granularity : Granularity) (metrics : List String) (groupBy : List GroupDefinition)
    (filter : Option Expression) :
    Option (List ResultByTime × Option WrappedError) × ApiState :=
  getCostDataLoop client startDate endDate granularity metrics groupBy filter fuel st [] none

/-! ## processAndDisplayResults (lines 67-152) -/

/-- A line written to standard output, by the `Printf`/`Println` call that
writes it. -/
inductive Line where
  /-- Line 69, `"--- %s Results ---\n"`. -/
  | resultsHeader (periodLabel : String)
  /-- Line 71. -/
  | noResults
  /-- Lines 72, 151, 219: `string(make([]byte, 30, 30))`, thirty zero bytes. -/
  | separator
  /-- Line 102, `"Total %s for %s: %.2f\n"`. -/
  | total (costMetric periodLabel : String) (totalCost : F64)
  /-- Line 106, `"Cost Summary by Service (%s):\n"`. -/
  | summaryTitle (periodLabel : String)
  /-- Lines 140, 141, 147, `"  %-50s %15s\n"`. -/
  | textRow (left right : String)
  /-- Lines 144, 149, `"  %-50s %15.2f\n"`. -/
  | amountRow (left : String) (value : F64)
  /-- Line 205. -/
  | fetchingPrevious (startDate endDate : String)
  /-- Line 221. -/
  | fetchingCurrent (startDate endDate : String)
  /-- Line 216. -/
  | currentHeader
  /-- Line 218. -/
  | firstOfMonth
deriving DecidableEq

/-- Pad with spaces on the right to `n` characters (`%-ns`). -/
def padRight (n : Nat) (s : String) : String :=
  s ++ String.mk (List.replicate (n - s.length) ' ')

/-- Pad with spaces on the left to `n` characters (`%ns`). -/
def padLeft (n : Nat) (s : String) : String :=
  String.mk (List.replicate (n - s.length) ' ') ++ s

/-- The rule printed under the table header, left column. -/
def ruleLeft : String := "--------------------------------------------------"

/-- The rule printed under the table header, right column. -/
def ruleRight : String := "---------------"

/-- The text of a line, without its newline. -/
def Line.render : Line → String
  | Line.resultsHeader periodLabel => "--- " ++ periodLabel ++ " Results ---"
  | Line.noResults => "No results found for this period."
  | Line.separator => String.mk (List.replicate 30 (Char.ofNat 0))
  | Line.total costMetric periodLabel totalCost =>
    "Total " ++ costMetric ++ " for " ++ periodLabel ++ ": " ++ totalCost.fmt2
  | Line.summaryTitle periodLabel => "Cost Summary by Service (" ++ periodLabel ++ "):"
  | Line.textRow left right => "  " ++ padRight 50 left ++ " " ++ padLeft 15 right
  | Line.amountRow left value => "  " ++ padRight 50 left ++ " " ++ padLeft 15 value.fmt2
  | Line.fetchingPrevious s e => "Fetching Previous Month's Data (" ++ s ++ " to " ++ e ++ ")..."
  | Line.fetchingCurrent s e => "Fetching Current Month's Data (" ++ s ++ " to " ++ e ++ ")..."
  | Line.currentHeader => "--- Current Month Results ---"
  | Line.firstOfMonth =>
    "Today is the 1st of the month. Check back tomorrow to see this month's usage data."

/-- A civil date in the zone of the run. -/
structure Time where
  year : Int
  month : Int
  day : Int
deriving DecidableEq, Repr

/-- A message written through the `log` package, by the call that writes it. -/
inductive LogLine where
  /-- Line 97. -/
  | warnTotal (amount periodLabel : String)
  /-- Line 118. -/
  | warnService (amount serviceName periodLabel : String)
  /-- Line 162. -/
  | marginNotSet
  /-- Line 171. -/
  | negativeMargin (marginPercent : F64)
  /-- Line 184. -/
  | scriptTime (now : Time)
  /-- Line 198 (`log.Fatalf`). -/
  | configFatal (err : String)
  /-- Line 208. -/
  | fetchPreviousError (err : WrappedError)
  /-- Line 224. -/
  | fetchCurrentError (err : WrappedError)
deriving DecidableEq

/-- A run-time panic of the Go program. -/
inductive Panic where
  /-- Index out of range, as in `metrics[0]` on an empty slice. -/
  | indexOutOfRange (index length : Nat)
  /-- Dereference of a nil pointer, as in `*groupBy[0].Key`. -/
  | nilDereference
deriving DecidableEq, Repr

/-- What one call of `processAndDisplayResults` does: the lines printed, the
messages logged, and the panic that ended it, if any. -/
structure Run where
  out : List Line
  log : List LogLine
  panic : Option Panic
deriving DecidableEq

/-- Body of the loop of lines 91-100: `st` is `totalCost` and the log. -/
def totalStep (rt : GoRuntime) (costMetric periodLabel : String) (markupMultiplier : F64)
    (st : F64 × List LogLine) (periodResult : ResultByTime) : F64 × List LogLine :=
  match periodResult.Total.lookup costMetric with
  | none => st
  | some metricValue =>
    match metricValue.Amount with
    | none => st
    | some amountStr =>
      match rt.ParseFloat amountStr with
      | some amount => (F64.mulAdd rt.fuseTotal st.1 amount markupMultiplier, st.2)
      | none => (st.1, st.2 ++ [LogLine.warnTotal amountStr periodLabel])

/-- The statement `m[k] += e` on a `map[string]float64`, with `f x` the value
of `x + e`: a missing key reads as `0.0` and is stored after the keys already
present. -/
def mapAddTo : List (String × F64) → String → (F64 → F64) → List (String × F64)
  | [], k, f => [(k, f F64.zero)]
  | (k1, x) :: rest, k, f =>
    if k1 = k then (k1, f x) :: rest else (k1, x) :: mapAddTo rest k f

/-- Body of the loop of lines 110-122: `st` is `serviceTotals` and the log. -/
def groupStep (rt : GoRuntime) (costMetric periodLabel : String) (markupMultiplier : F64)
    (st : List (String × F64) × List LogLine) (group : Group) :
    List (String × F64) × List LogLine :=
  match group.Keys with
  | [] => st
  | serviceName :: _ =>
    match group.Metrics.lookup costMetric with
    | none => st
    | some metricValue =>
      match metricValue.Amount with
      | none => st
      | some amountStr =>
        match rt.ParseFloat amountStr with
        | some amount =>
          (mapAddTo st.1 serviceName
            (fun x => F64.mulAdd rt.fuseService x amount markupMultiplier), st.2)
        | none => (st.1, st.2 ++ [LogLine.warnService amountStr serviceName periodLabel])

/-- The loops of lines 109-123: the map `serviceTotals` and the warnings logged. -/
def accumulateServices (rt : GoRuntime) (costMetric periodLabel : String)
    (markupMultiplier : F64) (results : List ResultByTime) :
    List (String × F64) × List LogLine :=
  results.foldl
    (fun st timePeriod =>
      timePeriod.Groups.foldl (groupStep rt costMetric periodLabel markupMultiplier) st)
    ([], [])

/-- The map `serviceTotals` after line 123. -/
def serviceTotals (rt : GoRuntime) (costMetric periodLabel : String)
    (markupMultiplier : F64) (results : List ResultByTime) : List (String × F64) :=
  (accumulateServices rt costMetric periodLabel markupMultiplier results).1

/-- The slice `sortedServices` after line 136. -/
def sortedServices (rt : GoRuntime) (costMetric periodLabel : String)
    (markupMultiplier : F64) (results : List ResultByTime) : List (String × F64) :=
  rt.sortSlice (fun a b => F64.gt a.2 b.2)
    (rt.mapRange (serviceTotals rt costMetric periodLabel markupMultiplier results))

/-- The variable `overallTotal` after the loop of lines 142-146. -/
def overallTotal (sorted : List (String × F64)) : F64 :=
  sorted.foldl (fun acc kvPair => F64.add acc kvPair.2) F64.zero

/-- The function `processAndDisplayResults`. -/
def processAndDisplayResults (rt : GoRuntime) (periodLabel : String)
    (results : List ResultByTime) (metrics : List String) (groupBy : List GroupDefinition)
    (markupMultiplier : F64) : Run :=
  let out0 := [Line.resultsHeader periodLabel]
  if results.length = 0 then
    { out := out0 ++ [Line.noResults, Line.separator], log := [], panic := none }
  else
    match metrics with
    | [] => { out := out0, log := [], panic := some (Panic.indexOutOfRange 0 0) }
    | costMetric :: _ =>
      if groupBy.length = 0 then
        let st := results.foldl (totalStep rt costMetric periodLabel markupMultiplier)
          (F64.zero, [])
        { out := out0 ++ [Line.total costMetric periodLabel st.1, Line.separator]
          log := st.2, panic := none }
      else
        match groupBy.head? with
        | none => { out := out0 ++ [Line.separator], log := [], panic := none }
        | some g =>
          match g.Key with
          | none => { out := out0, log := [], panic := some Panic.nilDereference }
          | some key =>
            if key = "SERVICE" then
              let sorted := sortedServices rt costMetric periodLabel markupMultiplier results
              { out := out0 ++ [Line.summaryTitle periodLabel,
                    Line.textRow "Service" costMetric, Line.textRow ruleLeft ruleRight]
                  ++ sorted.map (fun kvPair => Line.amountRow kvPair.1 kvPair.2)
                  ++ [Line.textRow ruleLeft ruleRight,
                    Line.amountRow "Total (Sum of Services)" (overallTotal sorted),
                    Line.separator]
                log := (accumulateServices rt costMetric periodLabel markupMultiplier results).2
                panic := none }
            else { out := out0 ++ [Line.separator], log := [], panic := none }

/-! ## main (lines 154-229) -/

/-- The helper `norm` of package `time`: carry `lo` into `hi` so that
`0 ≤ lo < base`. -/
def norm (hi lo base : Int) : Int × Int :=
  let (hi1, lo1) :=
    if lo < 0 then
      let n := (-lo - 1) / base + 1
      (hi - n, lo + n * base)
    else (hi, lo)
  if lo1 ≥ base then
    let n := lo1 / base
    (hi1 + n, lo1 - n * base)
  else (hi1, lo1)

/-- The call `time.Date(year, month, day, 0, 0, 0, 0, loc)` for a fixed-offset
zone and a day that exists in the month (the program only passes day 1): a
month outside 1..12 overflows into the year. -/
def timeDate (year month day : Int) : Time :=
  let p := norm year (month - 1) 12
  { year := p.1, month := p.2 + 1, day := day }

/-- The method `Time.AddDate(years, months, 0)`. -/
def Time.AddDate (t : Time) (years months : Int) : Time :=
  timeDate (t.year + years) (t.month + months) t.day

/-- Decimal digits of `n`, padded with zeros on the left to `width`. -/
def zeroPad (width : Nat) (n : Nat) : String :=
  String.mk (List.replicate (width - (toString n).length) '0') ++ toString n

/-- The call `t.Format("2006-01-02")`. -/
def Time.Format (t : Time) : String :=
  (if t.year < 0 then "-" else "") ++ zeroPad 4 t.year.natAbs ++ "-" ++
    zeroPad 2 t.month.toNat ++ "-" ++ zeroPad 2 t.day.toNat

/-- Three-letter month names of package `time`. -/
def shortMonthNames : List String :=
  ["Jan", "Feb", "Mar", "Apr", "May", "Jun", "Jul", "Aug", "Sep", "Oct", "Nov", "Dec"]

/-- The call `t.Format("Jan 2006")`. -/
def Time.FormatJan2006 (t : Time) : String :=
  shortMonthNames.getD (t.month.toNat - 1) "" ++ " " ++
    (if t.year < 0 then "-" else "") ++ zeroPad 4 t.year.natAbs

/-- What `main` finds outside the program: the date of the run, the
environment variable, whether the SDK configuration loads, and the billing
API. -/
structure World where
  /-- The date of the run, which `time.Now()` would return; that call is
  commented out on line 182, so the program does not read it. -/
  today : Time
  /-- Result of `os.Getenv("AWS_MARGIN")` (empty when unset). -/
  AWS_MARGIN : String
  /-- Error of `config.LoadDefaultConfig`, if any. -/
  configError : Option String
  /-- The billing API behind the client. -/
  client : Client

/-- How a run of `main` ends. -/
inductive Exit where
  /-- The function returned. -/
  | returned
  /-- The call `log.Fatalf` ended the process. -/
  | fatal
  /-- A pagination loop was still running when the fuel ran out. -/
  | running
  /-- A panic ended the process. -/
  | panicked (p : Panic)
deriving DecidableEq, Repr

/-- What a run of `main` does. -/
structure MainRun where
  out : List Line
  log : List LogLine
  api : ApiState
  exit : Exit
deriving DecidableEq

/-- The variable `marginPercent` after lines 156-176, with the messages logged. -/
def readMargin (rt : GoRuntime) (marginStr : String) : F64 × List LogLine :=
  if marginStr = "" then (F64.zero, [LogLine.marginNotSet])
  else
    match rt.ParseFloat marginStr with
    | none => (F64.zero, [])
    | some marginPercent =>
      if F64.lt marginPercent F64.zero then (marginPercent, [LogLine.negativeMargin marginPercent])
      else (marginPercent, [])

/-- The variable `markupMultiplier` of line 177. -/
def markupMultiplier (rt : GoRuntime) (marginStr : String) : F64 :=
  F64.add F64.one (F64.div (readMargin rt marginStr).1 F64.hundred)

/-- The reporting periods computed on lines 186-192. -/
structure Periods where
  currentDay : Int
  currentMonthStart : Time
  currentMonthEndAPI : String
  currentMonthStartStr : String
  previousMonthStart : Time
  previousMonthEndAPI : String
  previousMonthStartStr : String
deriving DecidableEq, Repr

/-- Lines 186-192. -/
def periods (now : Time) : Periods :=
  let currentYear := now.year
  let currentMonth := now.month
  let currentDay := now.day
  let currentMonthStart := timeDate currentYear currentMonth 1
  let currentMonthEndAPI := (currentMonthStart.AddDate 0 1).Format
  let currentMonthStartStr := currentMonthStart.Format
  let previousMonthStart := currentMonthStart.AddDate 0 (-1)
  let previousMonthEndAPI := currentMonthStartStr
  let previousMonthStartStr := previousMonthStart.Format
  { currentDay := currentDay
    currentMonthStart := currentMonthStart
    currentMonthEndAPI := currentMonthEndAPI
    currentMonthStartStr := currentMonthStartStr
    previousMonthStart := previousMonthStart
    previousMonthEndAPI := previousMonthEndAPI
    previousMonthStartStr := previousMonthStartStr }

/-- Lines 214-229: the current-month part of `main`, entered with the output,
log and API state left by what came before. -/
def currentMonthPart (rt : GoRuntime) (w : World) (fuel : Nat) (p : Periods)
    (markupMultiplier : F64) (out : List Line) (log : List LogLine) (api : ApiState) : MainRun :=
  if p.currentDay = 1 then
    { out := out ++ [Line.currentHeader, Line.firstOfMonth, Line.separator]
      log := log, api := api, exit := Exit.returned }
  else
    let out1 := out ++ [Line.fetchingCurrent p.currentMonthStartStr p.currentMonthEndAPI]
    match getCostData w.client fuel api p.currentMonthStartStr p.currentMonthEndAPI
        reportGranularity reportMetrics reportGroupBy reportFilter with
    | (none, api1) => { out := out1, log := log, api := api1, exit := Exit.running }
    | (some (_, some err), api1) =>
      { out := out1, log := log ++ [LogLine.fetchCurrentError err], api := api1
        exit := Exit.returned }
    | (some (currentMonthResults, none), api1) =>
      let r := processAndDisplayResults rt
        ("Current Month MTD (" ++ p.currentMonthStart.FormatJan2006 ++ ")")
        currentMonthResults reportMetrics reportGroupBy markupMultiplier
      { out := out1 ++ r.out, log := log ++ r.log, api := api1
        exit := match r.panic with
          | some e => Exit.panicked e
          | none => Exit.returned }

/-- The body of `main` with the reference instant of line 183 as a parameter:
lines 156-177 and 184-229 for the date `now`. -/
def mainAt (rt : GoRuntime) (w : World) (fuel : Nat) (now : Time) : MainRun :=
  let margin := readMargin rt w.AWS_MARGIN
  let multiplier := markupMultiplier rt w.AWS_MARGIN
  let log0 := margin.2 ++ [LogLine.scriptTime now]
  let p := periods now
  match w.configError with
  | some err =>
    { out := [], log := log0 ++ [LogLine.configFatal err], api := { next := 0, calls := [] }
      exit := Exit.fatal }
  | none =>
    let out1 := [Line.fetchingPrevious p.previousMonthStartStr p.previousMonthEndAPI]
    match getCostData w.client fuel { next := 0, calls := [] } p.previousMonthStartStr
        p.previousMonthEndAPI reportGranularity reportMetrics reportGroupBy reportFilter with
    | (none, api1) => { out := out1, log := log0, api := api1, exit := Exit.running }
    | (some (_, some err), api1) =>
      currentMonthPart rt w fuel p multiplier out1 (log0 ++ [LogLine.fetchPreviousError err]) api1
    | (some (prevMonthResults, none), api1) =>
      let r := processAndDisplayResults rt
        ("Previous Month (" ++ p.previousMonthStart.FormatJan2006 ++ ")")
        prevMonthResults reportMetrics reportGroupBy multiplier
      match r.panic with
      | some e =>
        { out := out1 ++ r.out, log := log0 ++ r.log, api := api1, exit := Exit.panicked e }
      | none => currentMonthPart rt w fuel p multiplier (out1 ++ r.out) (log0 ++ r.log) api1

/-- The reference instant of line 183: 1 May 2025 (12:00:08 in a fixed zone
four hours west of UTC). -/
def now : Time := { year := 2025, month := 5, day := 1 }

/-- The function `main`. -/
def main (rt : GoRuntime) (w : World) (fuel : Nat) : MainRun := mainAt rt w fuel now

/-! ## Notions used to state the properties -/

/-- The amount a time bucket contributes in ungrouped mode: the parsed
`Total[costMetric].Amount`, when the entry exists, its amount is not nil and
it parses. -/
def bucketAmount (rt : GoRuntime) (costMetric : String) (periodResult : ResultByTime) :
    Option F64 :=
  match periodResult.Total.lookup costMetric with
  | none => none
  | some metricValue =>
    match metricValue.Amount with
    | none => none
    | some amountStr => rt.ParseFloat amountStr

/-- The amount a group entry contributes in grouped mode, with the service it
is booked on: the entry needs a key, and a parseable amount for the metric. -/
def groupAmount (rt : GoRuntime) (costMetric : String) (group : Group) :
    Option (String × F64) :=
  match group.Keys with
  | [] => none
  | serviceName :: _ =>
    match group.Metrics.lookup costMetric with
    | none => none
    | some metricValue =>
      match metricValue.Amount with
      | none => none
      | some amountStr =>
        match rt.ParseFloat amountStr with
        | none => none
        | some amount => some (serviceName, amount)

/-- Float64 sum of a list, added left to right starting from `0.0`. -/
def sumF64 (l : List F64) : F64 := l.foldl F64.add F64.zero

/-- A time bucket with one total amount for `UnblendedCost`. -/
def totalBucket (amount : String) : ResultByTime :=
  { Estimated := false, Groups := [], TimePeriod := none
    Total := [("UnblendedCost", { Amount := some amount, Unit := some "USD" })] }

/-- A group entry for one service with one amount for `UnblendedCost`. -/
def serviceGroup (service amount : String) : Group :=
  { Keys := [service]
    Metrics := [("UnblendedCost", { Amount := some amount, Unit := some "USD" })] }

/-- A time bucket holding the given group entries. -/
def groupedBucket (groups : List Group) : ResultByTime :=
  { Estimated := false, Groups := groups, TimePeriod := none, Total := [] }

/-- A page of the billing API with the given buckets and continuation token. -/
def page (buckets : List ResultByTime) (token : Option String) : GetCostAndUsageOutput :=
  { ResultsByTime := buckets, NextPageToken := token }

/-- A billing API that answers with the given responses in turn, and with an
error once they are used up. -/
def scriptedClient (responses : List (Except ApiError GetCostAndUsageOutput)) : Client :=
  fun k => responses.getD k (Except.error { msg := "no more responses" })

/-- The value `-0.0`, which `ParseFloat` returns for `"-0"`. -/
def negZero : F64 := F64.fin true 0 0 (by decide)

/-- First day of the month of `t`. -/
def monthStart (t : Time) : Time := { year := t.year, month := t.month, day := 1 }

/-- First day of the month after the month of `t`. -/
def nextMonthStart (t : Time) : Time :=
  if t.month = 12 then { year := t.year + 1, month := 1, day := 1 }
  else { year := t.year, month := t.month + 1, day := 1 }

/-- First day of the month before the month of `t`. -/
def previousMonthStartOf (t : Time) : Time :=
  if t.month = 1 then { year := t.year - 1, month := 12, day := 1 }
  else { year := t.year, month := t.month - 1, day := 1 }

/-- A world for concrete runs: margin 20, the configuration loads, and the
billing API answers each of its first two calls with one page of two services. -/
def exampleWorld : World :=
  { today := { year := 2025, month := 5, day := 15 }
    AWS_MARGIN := "20"
    configError := none
    client := scriptedClient
      [Except.ok (page [groupedBucket [serviceGroup "EC2" "100.00", serviceGroup "S3" "50.00"]]
          none),
        Except.ok (page [groupedBucket [serviceGroup "EC2" "10.00", serviceGroup "S3" "5.00"]]
          none)] }

/-- The group entries that count, in the order the loops of lines 109-123
meet them: service and parsed amount of every entry with a key and a
parseable amount for the metric. -/
def contributions (rt : GoRuntime) (costMetric : String) (results : List ResultByTime) :
    List (String × F64) :=
  (results.map (fun timePeriod => timePeriod.Groups.filterMap (groupAmount rt costMetric))).flatten

/-- Book the marked-up amounts of a list of contributions on a map, one
`m[k] += amount * markupMultiplier` per contribution. -/
def bookAll (fused : Bool) (markupMultiplier : F64) (totals : List (String × F64))
    (entries : List (String × F64)) : List (String × F64) :=
  entries.foldl
    (fun acc e => mapAddTo acc e.1 (fun x => F64.mulAdd fused x e.2 markupMultiplier)) totals

/-- The amounts booked on service `k`, in order. -/
def amountsOf (k : String) (entries : List (String × F64)) : List F64 :=
  (entries.filter (fun e => decide (e.1 = k))).map Prod.snd

/-- Running total of `acc += amount * markupMultiplier` over a list of amounts,
from `0.0`. -/
def markedUpSum (fused : Bool) (markupMultiplier : F64) (amounts : List F64) : F64 :=
  amounts.foldl (fun acc amount => F64.mulAdd fused acc amount markupMultiplier) F64.zero

/-- The request `getCostData` sends for the period `[startDate, endDate)` with
the report's configuration and the given continuation token, field by field. -/
def reportRequest (startDate endDate : String) (token : Option String) :
    GetCostAndUsageInput :=
  { TimePeriod := some { Start := some startDate, End := some endDate }
    Granularity := Granularity.MONTHLY
    Metrics := ["UnblendedCost"]
    NextPageToken := token
    GroupBy := [{ Key := some "SERVICE", Typ := GroupDefinitionType.DIMENSION }]
    Filter := none }

/-- The float64 value of a natural number. -/
@[irreducible]
def ofNat (n : Nat) : F64 := F64.round false n 1

/-- The lines of a grouped report for the given rows. -/
def groupedReport (periodLabel costMetric : String) (rows : List (String × F64)) : List Line :=
  [Line.resultsHeader periodLabel, Line.summaryTitle periodLabel,
      Line.textRow "Service" costMetric, Line.textRow ruleLeft ruleRight]
    ++ rows.map (fun kvPair => Line.amountRow kvPair.1 kvPair.2)
    ++ [Line.textRow ruleLeft ruleRight,
      Line.amountRow "Total (Sum of Services)" (sumF64 (rows.map Prod.snd)),
      Line.separator]

end CostReporter

/-! ## Facts about float64 arithmetic -/

namespace F64

theorem bitLenAux_eq_size (f : Nat) :
    ∀ n acc, n ≤ f → bitLenAux f n acc = acc + Nat.size n := by
  induction f with
  | zero =>
    intro n acc h
    have : n = 0 := by omega
    subst this
    simp [bitLenAux]
  | succ f ih =>
    intro n acc h
    unfold bitLenAux
    by_cases hn : n = 0
    · subst hn; simp
    · rw [if_neg hn, ih (n / 2) (acc + 1) (by omega)]
      have h2 : Nat.size n = Nat.size (n / 2) + 1 := by
        have hb := Nat.bit_decomp n
        have hs := Nat.size_bit (b := n.bodd) (n := n.div2) (by rw [hb]; exact hn)
        rw [hb] at hs
        rw [hs, Nat.div2_val]
      omega

theorem bitLen_eq_size (n : Nat) : bitLen n = Nat.size n := by
  unfold bitLen
  rw [bitLenAux_eq_size n n 0 (le_refl _)]
  simp

theorem roundHalfEven_mul (m c : Nat) (hc : 0 < c) : roundHalfEven (m * c) c = m := by
  unfold roundHalfEven
  simp [Nat.mul_div_cancel _ hc, hc]

theorem roundHalfEven_bounds (a b : Nat) :
    a / b ≤ roundHalfEven a b ∧ roundHalfEven a b ≤ a / b + 1 := by
  unfold roundHalfEven
  simp only []
  split_ifs <;> omega

/-- The significand `round` computes has at most 53 bits, and exactly 53 above
the subnormal range. -/
theorem round_significand (a b : Nat) :
    roundHalfEven (a * 2 ^ 1074) (b * 2 ^ (bitLen (a * 2 ^ 1074 / b) - 53)) ≤ 2 ^ 53 ∧
      (bitLen (a * 2 ^ 1074 / b) - 53 = 0 ∨
        2 ^ 52 ≤ roundHalfEven (a * 2 ^ 1074) (b * 2 ^ (bitLen (a * 2 ^ 1074 / b) - 53))) := by
  generalize a * 2 ^ 1074 = A
  rw [bitLen_eq_size]
  have hb2 := roundHalfEven_bounds A (b * 2 ^ (Nat.size (A / b) - 53))
  have hq : A / (b * 2 ^ (Nat.size (A / b) - 53)) = A / b / 2 ^ (Nat.size (A / b) - 53) := by
    rw [Nat.div_div_eq_div_mul]
  rw [hq] at hb2
  have hlt : A / b < 2 ^ Nat.size (A / b) := Nat.lt_size_self _
  by_cases hs : Nat.size (A / b) ≤ 53
  · have h0 : Nat.size (A / b) - 53 = 0 := by omega
    rw [h0] at hb2 ⊢
    simp only [pow_zero, Nat.div_one, Nat.mul_one] at hb2 ⊢
    have : A / b < 2 ^ 53 := lt_of_lt_of_le hlt (Nat.pow_le_pow_right (by norm_num) hs)
    exact ⟨by omega, Or.inl trivial⟩
  · have hs2 : 53 < Nat.size (A / b) := by omega
    obtain ⟨s, hsz⟩ : ∃ s, Nat.size (A / b) = 53 + s := ⟨Nat.size (A / b) - 53, by omega⟩
    have hsub : Nat.size (A / b) - 53 = s := by omega
    rw [hsub] at hb2 ⊢
    have hpos : 0 < 2 ^ s := Nat.two_pow_pos s
    have hup : A / b / 2 ^ s < 2 ^ 53 := by
      rw [Nat.div_lt_iff_lt_mul hpos, ← pow_add]
      rw [hsz] at hlt
      exact hlt
    have hlo : 2 ^ 52 ≤ A / b / 2 ^ s := by
      rw [Nat.le_div_iff_mul_le hpos, ← pow_add]
      have : 52 + s < Nat.size (A / b) := by omega
      exact Nat.lt_size.mp this
    exact ⟨by omega, Or.inr (by omega)⟩

/-- The function `round` returns a finite value or the infinity of the given
sign, and an infinity only for a quotient of at least `2 ^ 1023`. -/
theorem round_fin_or_overflow (s : Bool) (a b : Nat) :
    (∃ m k h, round s a b = fin s m k h) ∨
      (round s a b = inf s ∧ 2098 ≤ bitLen (a * 2 ^ 1074 / b)) := by
  have hsig := round_significand a b
  unfold round
  simp only []
  split_ifs with hn hc hc
  · exact Or.inl ⟨_, _, hc, rfl⟩
  · refine Or.inr ⟨rfl, ?_⟩
    by_contra hlt
    apply hc
    refine ⟨by norm_num, by omega, Or.inr (le_refl _)⟩
  · exact Or.inl ⟨_, _, hc, rfl⟩
  · refine Or.inr ⟨rfl, ?_⟩
    by_contra hlt
    apply hc
    obtain ⟨h1, h2⟩ := hsig
    refine ⟨lt_of_le_of_ne h1 hn, by omega, h2⟩

/-- Rounding is exact on representable values: when `a / b` is the binary64
value `m * 2 ^ (k - 1074)`, `round` returns that value. -/
theorem round_exact (s : Bool) (a b m k : Nat) (h : Canonical m k) (hb : 0 < b)
    (hab : a * 2 ^ 1074 = m * 2 ^ k * b) : round s a b = fin s m k h := by
  obtain ⟨h1, h2, h3⟩ := h
  have hdiv : a * 2 ^ 1074 / b = m * 2 ^ k := by
    rw [hab]; exact Nat.mul_div_cancel _ hb
  have hshift : bitLen (m * 2 ^ k) - 53 = k := by
    rw [bitLen_eq_size]
    by_cases hm : 2 ^ 52 ≤ m
    · have hm0 : m ≠ 0 := by
        intro h0; rw [h0] at hm; simp at hm
      have hsz : Nat.size m = 53 := by
        apply le_antisymm
        · exact Nat.size_le.mpr h1
        · exact Nat.lt_size.mpr hm
      have := Nat.size_shiftLeft hm0 k
      rw [Nat.shiftLeft_eq] at this
      rw [this, hsz]; omega
    · have hk : k = 0 := by
        rcases h3 with h3 | h3
        · exact h3
        · exact absurd h3 hm
      subst hk
      have : Nat.size m ≤ 52 := Nat.size_le.mpr (by omega)
      simp; omega
  have hn : roundHalfEven (a * 2 ^ 1074) (b * 2 ^ k) = m := by
    rw [hab]
    have : m * 2 ^ k * b = m * (b * 2 ^ k) := by ring
    rw [this]
    exact roundHalfEven_mul m _ (Nat.mul_pos hb (Nat.two_pow_pos _))
  unfold round
  simp only [hdiv, hshift, hn]
  have hne : m ≠ 2 ^ 53 := by omega
  simp only [if_neg hne]
  rw [dif_pos ⟨h1, h2, h3⟩]

/-- Multiplying by `1.0` changes nothing. -/
theorem mul_one_eq (x : F64) : mul x one = x := by
  cases x with
  | nan => rfl
  | inf s => simp [mul, one]
  | fin s m k h =>
    simp only [mul, one]
    have hs : (s != false) = s := by cases s <;> rfl
    rw [hs]
    apply round_exact s _ _ m k h (Nat.two_pow_pos _)
    have e : 2148 = 52 + 1022 + 1074 := rfl
    rw [e, pow_add, pow_add, pow_add]
    ring

theorem roundHalfEven_scale (x y c : Nat) (hc : 0 < c) :
    roundHalfEven (x * c) (y * c) = roundHalfEven x y := by
  unfold roundHalfEven
  have hq : x * c / (y * c) = x / y := Nat.mul_div_mul_right x y hc
  have hr : x * c % (y * c) = x % y * c := Nat.mul_mod_mul_right c x y
  have h1 : 2 * (x % y * c) < y * c ↔ 2 * (x % y) < y := by
    rw [← Nat.mul_assoc]
    exact Nat.mul_lt_mul_right hc
  have h2 : y * c < 2 * (x % y * c) ↔ y < 2 * (x % y) := by
    rw [← Nat.mul_assoc]
    exact Nat.mul_lt_mul_right hc
  simp only [hq, hr, h1, h2]

/-- Rounding depends on the quotient only. -/
theorem round_scale (s : Bool) (a b c : Nat) (hc : 0 < c) :
    round s (a * c) (b * c) = round s a b := by
  have hdiv : a * c * 2 ^ 1074 / (b * c) = a * 2 ^ 1074 / b := by
    rw [Nat.mul_right_comm a c]
    exact Nat.mul_div_mul_right _ b hc
  have hn : ∀ t, roundHalfEven (a * c * 2 ^ 1074) (b * c * t) =
      roundHalfEven (a * 2 ^ 1074) (b * t) := by
    intro t
    rw [Nat.mul_right_comm a c, Nat.mul_right_comm b c]
    exact roundHalfEven_scale _ _ c hc
  unfold round
  simp only [hdiv, hn]

/-- A fused multiply-add with the factor `1.0` is the addition. -/
theorem fma_one_eq (a c : F64) : fma a one c = add c a := by
  cases a with
  | nan => cases c <;> rfl
  | inf s =>
    have hs : (s != false) = s := by cases s <;> rfl
    cases c with
    | nan => rfl
    | inf u =>
      simp only [fma, one, addInf, add, hs]
      by_cases h : s = u
      · subst h; simp
      · have h2 : ¬ u = s := fun e => h e.symm
        simp [h, h2]
    | fin u p q hc => simp [fma, one, addInf, add, hs]
  | fin s m k ha =>
    have hs : (s != false) = s := by cases s <;> rfl
    cases c with
    | nan => rfl
    | inf u => rfl
    | fin u p q hc =>
      simp only [fma, one, add, hs]
      generalize hC : (2:Nat) ^ 1074 = C
      have hCpos : 0 < C := by rw [← hC]; exact Nat.two_pow_pos 1074
      have e1 : m * 2 ^ 52 * 2 ^ (k + 1022) = m * 2 ^ k * C := by
        rw [← hC]
        have e : 1074 = 52 + 1022 := rfl
        rw [e, pow_add, pow_add]
        ring
      have e2 : (2:Nat) ^ 2148 = C * C := by
        rw [← hC, ← pow_add]
      rw [e1, e2]
      have hsum : toInt s (m * 2 ^ k * C) + toInt u (p * 2 ^ q * C) =
          (toInt u (p * 2 ^ q) + toInt s (m * 2 ^ k)) * (C : Int) := by
        unfold toInt
        cases s <;> cases u <;> simp <;> ring
      rw [hsum]
      generalize toInt u (p * 2 ^ q) + toInt s (m * 2 ^ k) = r
      have hCi : (0 : Int) < (C : Int) := by exact_mod_cast hCpos
      by_cases hr : r = 0
      · subst hr
        simp [Bool.and_comm]
      · have hne : r * (C : Int) ≠ 0 := mul_ne_zero hr hCi.ne'
        have hlt : (r * (C : Int) < 0) ↔ (r < 0) := by
          constructor
          · intro h
            by_contra h2
            have : 0 ≤ r * (C : Int) := mul_nonneg (not_lt.mp h2) hCi.le
            omega
          · intro h
            exact mul_neg_of_neg_of_pos h hCi
        have hd : decide (r * (C : Int) < 0) = decide (r < 0) := by
          simp only [hlt]
        have habs : (r * (C : Int)).natAbs = r.natAbs * C := by
          rw [Int.natAbs_mul, Int.natAbs_ofNat]
        rw [if_neg hne, if_neg hr, hd, habs]
        exact round_scale _ _ _ C hCpos

/-- With the factor `1.0`, `acc += a * 1.0` is `acc + a` whether fused or not. -/
theorem mulAdd_one_eq (fused : Bool) (acc a : F64) : mulAdd fused acc a one = add acc a := by
  unfold mulAdd
  cases fused
  · simp [mul_one_eq]
  · simp [fma_one_eq]

/-- Multiplication is commutative. -/
theorem mul_comm_eq (x y : F64) : mul x y = mul y x := by
  have hb : ∀ s t : Bool, (s != t) = (t != s) := by decide
  cases x with
  | nan => cases y <;> simp only [mul]
  | inf s =>
    cases y with
    | nan => simp only [mul]
    | inf t => simp only [mul, hb s t]
    | fin t n l _ => simp only [mul, hb s t]
  | fin s m k _ =>
    cases y with
    | nan => simp only [mul]
    | inf t => simp only [mul, hb s t]
    | fin t n l _ => simp only [mul, hb s t, Nat.mul_comm m n, Nat.add_comm k l]

/-- Adding a value to `0.0` gives the value back, except that `-0` becomes `0`. -/
theorem zero_add_eq (x : F64) (hx : ∀ h, x ≠ fin true 0 0 h) : add zero x = x := by
  cases x with
  | nan => rfl
  | inf s => rfl
  | fin s m k h =>
    simp only [add, zero, toInt]
    by_cases hm : m = 0
    · subst hm
      have hk : k = 0 := by
        rcases h.2.2 with h3 | h3
        · exact h3
        · simp at h3
      subst hk
      cases s
      · simp
      · exact absurd rfl (hx h)
    · have hpos : 0 < m * 2 ^ k := Nat.mul_pos (Nat.pos_of_ne_zero hm) (Nat.two_pow_pos _)
      cases s
      · simp only [Bool.false_eq_true, if_false, pow_zero, mul_one, Nat.cast_zero, zero_add]
        rw [if_neg (by exact_mod_cast hpos.ne')]
        have h1 : decide (((m * 2 ^ k : Nat) : Int) < 0) = false := by
          simp only [decide_eq_false_iff_not, not_lt]; exact Int.ofNat_nonneg _
        rw [h1]
        apply round_exact false _ _ m k h (Nat.two_pow_pos _)
        rw [Int.natAbs_ofNat]
      · simp only [if_true, Bool.false_eq_true, if_false, pow_zero, mul_one, Nat.cast_zero,
          zero_add]
        rw [if_neg (by simp; omega)]
        have h1 : decide (-((m * 2 ^ k : Nat) : Int) < 0) = true := by
          simp only [decide_eq_true_eq]; omega
        rw [h1]
        apply round_exact true _ _ m k h (Nat.two_pow_pos _)
        rw [Int.natAbs_neg, Int.natAbs_ofNat]

theorem lt_irrefl_eq (x : F64) : lt x x = false := by
  cases x with
  | nan => rfl
  | inf s => cases s <;> rfl
  | fin s m k h => simp [lt]

theorem lt_trans_eq (x y z : F64) (h1 : lt x y = true) (h2 : lt y z = true) :
    lt x z = true := by
  cases x <;> cases y <;> cases z <;> simp_all [lt]
  exact lt_trans h1 h2

theorem lt_negtrans_eq (x y z : F64) (hy : y.isNaN = false)
    (h1 : lt x y = false) (h2 : lt y z = false) : lt x z = false := by
  cases x <;> cases y <;> cases z <;> simp_all [lt, isNaN]
  exact le_trans h2 h1

theorem ge_of_lt_false (x y : F64) (hx : x.isNaN = false) (hy : y.isNaN = false)
    (h : lt x y = false) : ge x y = true := by
  cases x <;> cases y <;> simp_all [ge, isNaN]

theorem ge_nan_right (x : F64) : ge x nan = false := by
  cases x <;> rfl

theorem roundHalfEven_mono (a c b : Nat) (hb : 0 < b) (h : a ≤ c) :
    roundHalfEven a b ≤ roundHalfEven c b := by
  unfold roundHalfEven
  have hq : a / b ≤ c / b := Nat.div_le_div_right h
  have ha := Nat.div_add_mod a b
  have hc := Nat.div_add_mod c b
  have hra : a % b < b := Nat.mod_lt _ hb
  have hrc : c % b < b := Nat.mod_lt _ hb
  rcases Nat.lt_or_ge (a / b) (c / b) with hlt | hge
  · simp only []
    split_ifs <;> omega
  · have heq : a / b = c / b := le_antisymm hq hge
    have hr : a % b ≤ c % b := by
      have : b * (a / b) = b * (c / b) := by rw [heq]
      omega
    simp only [heq]
    split_ifs <;> omega

/-- Rendering with `%.2f` keeps the order: if `x < y` is false for finite
`x`, `y` then the hundredths shown for `y` are at most those shown for `x`. -/
theorem shown_mono (x y : F64) (cx cy : Int) (h : lt x y = false)
    (hx : x.shown = some cx) (hy : y.shown = some cy) : cy ≤ cx := by
  cases x with
  | nan => simp [shown] at hx
  | inf s => simp [shown] at hx
  | fin s m k hc =>
    cases y with
    | nan => simp [shown] at hy
    | inf t => simp [shown] at hy
    | fin t n l hd =>
      simp only [shown, Option.some.injEq] at hx hy
      subst hx; subst hy
      simp only [lt, decide_eq_false_iff_not, not_lt] at h
      have hpos : 0 < 2 ^ 1074 := Nat.two_pow_pos 1074
      cases s <;> cases t <;> simp only [toInt, if_true, if_false, Bool.false_eq_true] at h ⊢
      · have h1 : n * 2 ^ l ≤ m * 2 ^ k := by exact_mod_cast h
        have := roundHalfEven_mono (n * 2 ^ l * 100) (m * 2 ^ k * 100) (2 ^ 1074) hpos
          (Nat.mul_le_mul_right _ h1)
        unfold cents
        exact_mod_cast this
      · have : (0:Int) ≤ ((cents m k : Nat) : Int) := Int.ofNat_nonneg _
        have : (0:Int) ≤ ((cents n l : Nat) : Int) := Int.ofNat_nonneg _
        omega
      · have h0 : (0:Int) ≤ ((m * 2 ^ k : Nat) : Int) := Int.ofNat_nonneg _
        have h0n : (0:Int) ≤ ((n * 2 ^ l : Nat) : Int) := Int.ofNat_nonneg _
        have hm0 : m * 2 ^ k = 0 := by omega
        have hn0 : n * 2 ^ l = 0 := by omega
        unfold cents
        rw [hm0, hn0]
        simp [roundHalfEven]
      · have h1 : m * 2 ^ k ≤ n * 2 ^ l := by omega
        have := roundHalfEven_mono (m * 2 ^ k * 100) (n * 2 ^ l * 100) (2 ^ 1074) hpos
          (Nat.mul_le_mul_right _ h1)
        unfold cents
        omega

end F64

namespace CostReporter

/-! ## Pagination -/

/-- The request of lines 35-49 field by field: period, granularity, metrics,
token, grouping and filter as given. -/
theorem getCostDataInput_eq (startDate endDate : String) (granularity : Granularity)
    (metrics : List String) (groupBy : List GroupDefinition) (filter : Option Expression)
    (tok : Option String) :
    getCostDataInput startDate endDate granularity metrics groupBy filter tok =
      { TimePeriod := some { Start := some startDate, End := some endDate }
        Granularity := granularity
        Metrics := metrics
        NextPageToken := tok
        GroupBy := groupBy
        Filter := filter } := by
  unfold getCostDataInput
  cases groupBy <;> cases filter <;> simp

/-- The loop of `getCostData` on a run of successful pages: every page of
`pages` carries a token, `last` carries none. -/
theorem getCostDataLoop_pages (client : Client) (startDate endDate : String)
    (granularity : Granularity) (metrics : List String) (groupBy : List GroupDefinition)
    (filter : Option Expression) (last : GetCostAndUsageOutput)
    (hlast : last.NextPageToken = none) :
    ∀ (pages : List GetCostAndUsageOutput) (fuel : Nat) (st : ApiState)
      (allResults : List ResultByTime) (tok : Option String),
      (∀ i p, (pages ++ [last])[i]? = some p → client (st.next + i) = Except.ok p) →
      (∀ p ∈ pages, p.NextPageToken ≠ none) →
      pages.length + 1 ≤ fuel →
      getCostDataLoop client startDate endDate granularity metrics groupBy filter
          fuel st allResults tok =
        (some (allResults ++ ((pages ++ [last]).map (fun p => p.ResultsByTime)).flatten, none),
          { next := st.next + (pages.length + 1)
            calls := st.calls ++ (tok :: pages.map (fun p => p.NextPageToken)).map
              (getCostDataInput startDate endDate granularity metrics groupBy filter) }) := by
  intro pages
  induction pages with
  | nil =>
    intro fuel st allResults tok hresp _ hfuel
    obtain ⟨f, rfl⟩ : ∃ f, fuel = f + 1 := ⟨fuel - 1, by simp at hfuel; omega⟩
    have h0 := hresp 0 last (by simp)
    simp only [Nat.add_zero] at h0
    simp [getCostDataLoop, h0, hlast]
  | cons p ps ih =>
    intro fuel st allResults tok hresp htok hfuel
    obtain ⟨f, rfl⟩ : ∃ f, fuel = f + 1 := ⟨fuel - 1, by simp at hfuel; omega⟩
    have h0 := hresp 0 p (by simp)
    simp only [Nat.add_zero] at h0
    obtain ⟨t, ht⟩ : ∃ t, p.NextPageToken = some t :=
      Option.ne_none_iff_exists'.mp (htok p (List.mem_cons_self _ _))
    have hstep := ih f
      { next := st.next + 1
        calls := st.calls ++ [getCostDataInput startDate endDate granularity metrics groupBy
          filter tok] }
      (allResults ++ p.ResultsByTime) (some t)
      (by
        intro i q hq
        have := hresp (i + 1) q (by simpa using hq)
        simpa [Nat.add_assoc, Nat.add_comm 1 i] using this)
      (fun q hq => htok q (List.mem_cons_of_mem _ hq))
      (by simp at hfuel ⊢; omega)
    simp only [getCostDataLoop, h0, ht]
    rw [hstep]
    simp [ht, Nat.add_assoc, Nat.add_comm 1]

/-- The loop of `getCostData` when the call after a run of token-carrying
pages fails. -/
theorem getCostDataLoop_error (client : Client) (startDate endDate : String)
    (granularity : Granularity) (metrics : List String) (groupBy : List GroupDefinition)
    (filter : Option Expression) (err : ApiError) :
    ∀ (pages : List GetCostAndUsageOutput) (fuel : Nat) (st : ApiState)
      (allResults : List ResultByTime) (tok : Option String),
      (∀ i p, pages[i]? = some p → client (st.next + i) = Except.ok p) →
      client (st.next + pages.length) = Except.error err →
      (∀ p ∈ pages, p.NextPageToken ≠ none) →
      pages.length + 1 ≤ fuel →
      getCostDataLoop client startDate endDate granularity metrics groupBy filter
          fuel st allResults tok =
        (some ([], some (fetchError startDate endDate err)),
          { next := st.next + (pages.length + 1)
            calls := st.calls ++ (tok :: pages.map (fun p => p.NextPageToken)).map
              (getCostDataInput startDate endDate granularity metrics groupBy filter) }) := by
  intro pages
  induction pages with
  | nil =>
    intro fuel st allResults tok _ herr _ hfuel
    obtain ⟨f, rfl⟩ : ∃ f, fuel = f + 1 := ⟨fuel - 1, by simp at hfuel; omega⟩
    simp only [List.length_nil, Nat.add_zero] at herr
    simp [getCostDataLoop, herr]
  | cons p ps ih =>
    intro fuel st allResults tok hresp herr htok hfuel
    obtain ⟨f, rfl⟩ : ∃ f, fuel = f + 1 := ⟨fuel - 1, by simp at hfuel; omega⟩
    have h0 := hresp 0 p (by simp)
    simp only [Nat.add_zero] at h0
    obtain ⟨t, ht⟩ : ∃ t, p.NextPageToken = some t :=
      Option.ne_none_iff_exists'.mp (htok p (List.mem_cons_self _ _))
    have hstep := ih f
      { next := st.next + 1
        calls := st.calls ++ [getCostDataInput startDate endDate granularity metrics groupBy
          filter tok] }
      (allResults ++ p.ResultsByTime) (some t)
      (by
        intro i q hq
        have := hresp (i + 1) q (by simpa using hq)
        simpa [Nat.add_assoc, Nat.add_comm 1 i] using this)
      (by simpa [Nat.add_assoc, Nat.add_comm 1] using herr)
      (fun q hq => htok q (List.mem_cons_of_mem _ hq))
      (by simp at hfuel ⊢; omega)
    simp only [getCostDataLoop, h0, ht]
    rw [hstep]
    simp [ht, Nat.add_assoc, Nat.add_comm 1]

/-! ## Rendering: shape of the output -/

/-- With a non-empty `metrics` and a non-nil first grouping key (or with no
results at all) `processAndDisplayResults` does not panic and its last line is
the separator. -/
theorem processAndDisplayResults_completes (rt : GoRuntime) (periodLabel : String)
    (results : List ResultByTime) (metrics : List String) (groupBy : List GroupDefinition)
    (m : F64)
    (h : results = [] ∨ (metrics ≠ [] ∧ ∀ g, groupBy.head? = some g → g.Key ≠ none)) :
    (processAndDisplayResults rt periodLabel results metrics groupBy m).panic = none ∧
      (processAndDisplayResults rt periodLabel results metrics groupBy m).out.getLast? =
        some Line.separator := by
  unfold processAndDisplayResults
  by_cases hres : results.length = 0
  · simp [hres]
  · have hne : results ≠ [] := by
      intro h0; apply hres; simp [h0]
    rcases h with h | ⟨hm, hk⟩
    · exact absurd h hne
    · simp only [hres, if_false]
      cases metrics with
      | nil => exact absurd rfl hm
      | cons costMetric rest =>
        simp only []
        by_cases hg : groupBy.length = 0
        · simp [hg]
        · simp only [hg, if_false]
          cases hh : groupBy.head? with
          | none => simp
          | some g =>
            simp only []
            cases hkey : g.Key with
            | none => exact absurd hkey (hk g hh)
            | some key =>
              simp only []
              by_cases hs : key = "SERVICE"
              · have hl : ∀ (a : Line) (l : List Line) (x y : Line),
                    (a :: (l ++ [x, y, Line.separator])).getLast? = some Line.separator := by
                  intro a l x y
                  have h3 : a :: (l ++ [x, y, Line.separator]) =
                      (a :: (l ++ [x, y])) ++ [Line.separator] := by simp
                  rw [h3, List.getLast?_concat]
                simp [hs, hl]
              · simp [hs]

/-- The helper `norm` leaves an in-range month alone, carries month 12 (counted
from 0) into the next year and month -1 into the year before. -/
theorem timeDate_cases (y mm d : Int) :
    (1 ≤ mm → mm ≤ 12 → timeDate y mm d = { year := y, month := mm, day := d }) ∧
    (mm = 13 → timeDate y mm d = { year := y + 1, month := 1, day := d }) ∧
    (mm = 0 → timeDate y mm d = { year := y - 1, month := 12, day := d }) := by
  refine ⟨?_, ?_, ?_⟩
  · intro h1 h12
    unfold timeDate norm
    have h2 : ¬ (mm - 1 < 0) := by omega
    have h3 : ¬ (mm - 1 ≥ 12) := by omega
    simp [h2, h3]
  · intro h
    subst h
    unfold timeDate norm
    simp
  · intro h
    subst h
    unfold timeDate norm
    simp

/-- The periods computed by `main` for a reference date whose month is valid. -/
theorem periods_eq (now : Time) (h1 : 1 ≤ now.month) (h12 : now.month ≤ 12) :
    periods now =
      { currentDay := now.day
        currentMonthStart := { year := now.year, month := now.month, day := 1 }
        currentMonthEndAPI := Time.Format
          (if now.month = 12 then { year := now.year + 1, month := 1, day := 1 }
            else { year := now.year, month := now.month + 1, day := 1 })
        currentMonthStartStr := Time.Format { year := now.year, month := now.month, day := 1 }
        previousMonthStart :=
          if now.month = 1 then { year := now.year - 1, month := 12, day := 1 }
          else { year := now.year, month := now.month - 1, day := 1 }
        previousMonthEndAPI := Time.Format { year := now.year, month := now.month, day := 1 }
        previousMonthStartStr := Time.Format
          (if now.month = 1 then { year := now.year - 1, month := 12, day := 1 }
            else { year := now.year, month := now.month - 1, day := 1 }) } := by
  obtain ⟨y, m, d⟩ := now
  simp only at h1 h12
  have hcur : timeDate y m 1 = { year := y, month := m, day := 1 } :=
    (timeDate_cases y m 1).1 h1 h12
  have hnext : Time.AddDate { year := y, month := m, day := 1 } 0 1 =
      (if m = 12 then { year := y + 1, month := 1, day := 1 }
        else { year := y, month := m + 1, day := 1 }) := by
    unfold Time.AddDate
    simp only [Int.add_zero]
    by_cases hm : m = 12
    · rw [if_pos hm]
      exact (timeDate_cases y (m + 1) 1).2.1 (by omega)
    · rw [if_neg hm]
      exact (timeDate_cases y (m + 1) 1).1 (by omega) (by omega)
  have hprev : Time.AddDate { year := y, month := m, day := 1 } 0 (-1) =
      (if m = 1 then { year := y - 1, month := 12, day := 1 }
        else { year := y, month := m - 1, day := 1 }) := by
    unfold Time.AddDate
    simp only [Int.add_zero]
    by_cases hm : m = 1
    · rw [if_pos hm]
      exact (timeDate_cases y (m + -1) 1).2.2 (by omega)
    · rw [if_neg hm]
      exact (timeDate_cases y (m + -1) 1).1 (by omega) (by omega)
  simp only [periods, hcur, hnext, hprev]

/-- Calls are only ever added to the log, and a loop that runs at all first
adds the request carrying the token it was entered with. -/
theorem getCostDataLoop_calls (client : Client) (startDate endDate : String)
    (granularity : Granularity) (metrics : List String) (groupBy : List GroupDefinition)
    (filter : Option Expression) :
    ∀ (fuel : Nat) (st : ApiState) (allResults : List ResultByTime) (tok : Option String),
      ∃ rest, (getCostDataLoop client startDate endDate granularity metrics groupBy filter
          fuel st allResults tok).2.calls = st.calls ++ rest ∧
        (0 < fuel → rest.head? =
          some (getCostDataInput startDate endDate granularity metrics groupBy filter tok)) := by
  intro fuel
  induction fuel with
  | zero =>
    intro st allResults tok
    exact ⟨[], by simp [getCostDataLoop], by simp⟩
  | succ f ih =>
    intro st allResults tok
    simp only [getCostDataLoop]
    cases hc : client st.next with
    | error err =>
      exact ⟨[getCostDataInput startDate endDate granularity metrics groupBy filter tok],
        by simp, by simp⟩
    | ok output =>
      simp only []
      cases ht : output.NextPageToken with
      | none =>
        exact ⟨[getCostDataInput startDate endDate granularity metrics groupBy filter tok],
          by simp, by simp⟩
      | some t =>
        simp only []
        obtain ⟨rest, hrest, _⟩ := ih
          { next := st.next + 1
            calls := st.calls ++ [getCostDataInput startDate endDate granularity metrics
              groupBy filter tok] }
          (allResults ++ output.ResultsByTime) (some t)
        exact ⟨getCostDataInput startDate endDate granularity metrics groupBy filter tok :: rest,
          by rw [hrest]; simp, by simp⟩

/-- The current-month part of `main` on the first of the month: no fetch, the
notice is printed. -/
theorem currentMonthPart_first (rt : GoRuntime) (w : World) (fuel : Nat) (p : Periods)
    (m : F64) (out : List Line) (log : List LogLine) (api : ApiState) (hday : p.currentDay = 1) :
    currentMonthPart rt w fuel p m out log api =
      { out := out ++ [Line.currentHeader, Line.firstOfMonth, Line.separator]
        log := log, api := api, exit := Exit.returned } := by
  simp [currentMonthPart, hday]

/-- The current-month part of `main` on any other day: `getCostData` is called
for the current period, after the line announcing it. -/
theorem currentMonthPart_other (rt : GoRuntime) (w : World) (fuel : Nat) (p : Periods)
    (m : F64) (out : List Line) (log : List LogLine) (api : ApiState) (hday : p.currentDay ≠ 1) :
    (currentMonthPart rt w fuel p m out log api).api =
        (getCostData w.client fuel api p.currentMonthStartStr p.currentMonthEndAPI
          reportGranularity reportMetrics reportGroupBy reportFilter).2 ∧
      Line.fetchingCurrent p.currentMonthStartStr p.currentMonthEndAPI ∈
        (currentMonthPart rt w fuel p m out log api).out := by
  unfold currentMonthPart
  simp only [hday, if_false]
  rcases hg : getCostData w.client fuel api p.currentMonthStartStr p.currentMonthEndAPI
      reportGranularity reportMetrics reportGroupBy reportFilter with ⟨r, api1⟩
  cases r with
  | none => simp
  | some v =>
    obtain ⟨res, err⟩ := v
    cases err with
    | some e => simp
    | none => simp

/-! ## Aggregation -/

/-- One iteration of the ungrouped loop adds the marked-up amount of the
bucket, if it has one. -/
theorem totalStep_fst (rt : GoRuntime) (costMetric periodLabel : String) (m : F64)
    (st : F64 × List LogLine) (r : ResultByTime) :
    (totalStep rt costMetric periodLabel m st r).1 =
      match bucketAmount rt costMetric r with
      | none => st.1
      | some amount => F64.mulAdd rt.fuseTotal st.1 amount m := by
  unfold totalStep bucketAmount
  cases r.Total.lookup costMetric with
  | none => rfl
  | some mv =>
    simp only []
    cases mv.Amount with
    | none => rfl
    | some a =>
      simp only []
      cases rt.ParseFloat a <;> rfl

/-- The ungrouped loop: `totalCost` is the running total, in bucket order, of
`acc += amount * m` over the amounts. -/
theorem totalLoop_fst (rt : GoRuntime) (costMetric periodLabel : String) (m : F64) :
    ∀ (results : List ResultByTime) (st : F64 × List LogLine),
      (results.foldl (totalStep rt costMetric periodLabel m) st).1 =
        (results.filterMap (bucketAmount rt costMetric)).foldl
          (fun acc amount => F64.mulAdd rt.fuseTotal acc amount m) st.1 := by
  intro results
  induction results with
  | nil => intro st; rfl
  | cons r rs ih =>
    intro st
    rw [List.foldl_cons, ih, totalStep_fst]
    cases h : bucketAmount rt costMetric r with
    | none => simp [List.filterMap_cons, h]
    | some a => simp [List.filterMap_cons, h]

/-- One iteration of the grouped loop books the marked-up amount of the entry,
if it has one. -/
theorem groupStep_fst (rt : GoRuntime) (costMetric periodLabel : String) (m : F64)
    (st : List (String × F64) × List LogLine) (g : Group) :
    (groupStep rt costMetric periodLabel m st g).1 =
      match groupAmount rt costMetric g with
      | none => st.1
      | some e => mapAddTo st.1 e.1 (fun x => F64.mulAdd rt.fuseService x e.2 m) := by
  unfold groupStep groupAmount
  cases g.Keys with
  | nil => rfl
  | cons k ks =>
    simp only []
    cases g.Metrics.lookup costMetric with
    | none => rfl
    | some mv =>
      simp only []
      cases mv.Amount with
      | none => rfl
      | some a =>
        simp only []
        cases rt.ParseFloat a <;> rfl

theorem groupLoop_fst (rt : GoRuntime) (costMetric periodLabel : String) (m : F64) :
    ∀ (groups : List Group) (st : List (String × F64) × List LogLine),
      (groups.foldl (groupStep rt costMetric periodLabel m) st).1 =
        bookAll rt.fuseService m st.1 (groups.filterMap (groupAmount rt costMetric)) := by
  intro groups
  induction groups with
  | nil => intro st; rfl
  | cons g gs ih =>
    intro st
    rw [List.foldl_cons, ih, groupStep_fst]
    cases h : groupAmount rt costMetric g with
    | none => simp [List.filterMap_cons, h]
    | some e => simp [List.filterMap_cons, h, bookAll]

theorem bookAll_append (fused : Bool) (m : F64) (totals : List (String × F64))
    (l1 l2 : List (String × F64)) :
    bookAll fused m totals (l1 ++ l2) = bookAll fused m (bookAll fused m totals l1) l2 := by
  simp [bookAll, List.foldl_append]

theorem accumulate_fst (rt : GoRuntime) (costMetric periodLabel : String) (m : F64) :
    ∀ (results : List ResultByTime) (st : List (String × F64) × List LogLine),
      (results.foldl
        (fun st timePeriod =>
          timePeriod.Groups.foldl (groupStep rt costMetric periodLabel m) st) st).1 =
        bookAll rt.fuseService m st.1 (contributions rt costMetric results) := by
  intro results
  induction results with
  | nil => intro st; rfl
  | cons r rs ih =>
    intro st
    rw [List.foldl_cons, ih, groupLoop_fst]
    simp [contributions, bookAll_append]

/-- The map `serviceTotals` is what booking the contributions one by one on
the empty map gives. -/
theorem serviceTotals_eq (rt : GoRuntime) (costMetric periodLabel : String) (m : F64)
    (results : List ResultByTime) :
    serviceTotals rt costMetric periodLabel m results =
      bookAll rt.fuseService m [] (contributions rt costMetric results) := by
  unfold serviceTotals accumulateServices
  exact accumulate_fst rt costMetric periodLabel m results ([], [])

theorem mapAddTo_keys (totals : List (String × F64)) (k : String) (v : F64 → F64) :
    (mapAddTo totals k v).map Prod.fst =
      if k ∈ totals.map Prod.fst then totals.map Prod.fst else totals.map Prod.fst ++ [k] := by
  induction totals with
  | nil => simp [mapAddTo]
  | cons e rest ih =>
    obtain ⟨k1, x⟩ := e
    unfold mapAddTo
    by_cases h : k1 = k
    · subst h; simp
    · have hne : ¬ k = k1 := fun h2 => h h2.symm
      simp only [h, if_false, List.map_cons, ih, List.mem_cons, hne, false_or]
      split_ifs <;> simp

theorem mapAddTo_nodup (totals : List (String × F64)) (k : String) (v : F64 → F64)
    (h : (totals.map Prod.fst).Nodup) : ((mapAddTo totals k v).map Prod.fst).Nodup := by
  rw [mapAddTo_keys]
  split_ifs with hk
  · exact h
  · exact List.Nodup.append h (List.nodup_singleton k) (by simpa using hk)

theorem bookAll_nodup (fused : Bool) (m : F64) :
    ∀ (entries totals : List (String × F64)), (totals.map Prod.fst).Nodup →
      ((bookAll fused m totals entries).map Prod.fst).Nodup := by
  intro entries
  induction entries with
  | nil => intro totals h; exact h
  | cons e es ih =>
    intro totals h
    unfold bookAll
    rw [List.foldl_cons]
    exact ih _ (mapAddTo_nodup totals e.1 _ h)

/-- No service appears twice in `serviceTotals`. -/
theorem serviceTotals_nodup (rt : GoRuntime) (costMetric periodLabel : String) (m : F64)
    (results : List ResultByTime) :
    ((serviceTotals rt costMetric periodLabel m results).map Prod.fst).Nodup := by
  rw [serviceTotals_eq]
  exact bookAll_nodup rt.fuseService m _ [] (by simp)

theorem overallTotal_eq (rows : List (String × F64)) :
    overallTotal rows = sumF64 (rows.map Prod.snd) := by
  unfold overallTotal sumF64
  rw [List.foldl_map]

/-- In SERVICE mode with results, the report is the header lines, one row per
element of `sortedServices`, and the total row with their float64 sum. -/
theorem grouped_out (rt : GoRuntime) (periodLabel costMetric : String)
    (results : List ResultByTime) (metrics : List String) (g : GroupDefinition)
    (groupBy : List GroupDefinition) (m : F64)
    (hres : results ≠ []) (hkey : g.Key = some "SERVICE") :
    (processAndDisplayResults rt periodLabel results (costMetric :: metrics) (g :: groupBy)
        m).out =
      groupedReport periodLabel costMetric
        (sortedServices rt costMetric periodLabel m results) := by
  unfold processAndDisplayResults groupedReport
  have hl : ¬ results.length = 0 := by
    intro h; exact hres (List.length_eq_zero.mp h)
  simp [hl, hkey, overallTotal_eq]

/-! ## Sorting -/

/-- The comparison of line 135 is a strict weak ordering of any entries whose
values are not NaN. -/
theorem strictWeakOn_gt (l : List (String × F64)) (hnan : ∀ e ∈ l, e.2.isNaN = false) :
    StrictWeakOn (fun a b => F64.gt a.2 b.2) l := by
  refine ⟨?_, ?_, ?_⟩
  · intro a _
    exact F64.lt_irrefl_eq a.2
  · intro a _ b _ c _ h1 h2
    exact F64.lt_trans_eq c.2 b.2 a.2 h2 h1
  · intro a _ b hb c _ h1 h2
    exact F64.lt_negtrans_eq c.2 b.2 a.2 (hnan b hb) h2 h1

/-- Under the library contract the rows are a rearrangement of the map. -/
theorem sortedServices_perm (rt : GoRuntime) (hrt : rt.Lawful) (costMetric periodLabel : String)
    (m : F64) (results : List ResultByTime) :
    (sortedServices rt costMetric periodLabel m results).Perm
      (serviceTotals rt costMetric periodLabel m results) :=
  (hrt.sortSlice_perm _ _).trans (hrt.mapRange_perm _)

/-- Under the library contract, and with no NaN among the totals, every row is
`>=` every later row. -/
theorem sortedServices_sorted (rt : GoRuntime) (hrt : rt.Lawful)
    (costMetric periodLabel : String) (m : F64) (results : List ResultByTime)
    (hnan : ∀ e ∈ serviceTotals rt costMetric periodLabel m results, e.2.isNaN = false) :
    (sortedServices rt costMetric periodLabel m results).Pairwise
      (fun a b => F64.ge a.2 b.2 = true) := by
  have hperm := sortedServices_perm rt hrt costMetric periodLabel m results
  have hnan1 : ∀ e ∈ rt.mapRange (serviceTotals rt costMetric periodLabel m results),
      e.2.isNaN = false :=
    fun e he => hnan e ((hrt.mapRange_perm _).mem_iff.mp he)
  have hs := hrt.sortSlice_sorted (fun a b => F64.gt a.2 b.2) _ (strictWeakOn_gt _ hnan1)
  have hnan2 : ∀ e ∈ sortedServices rt costMetric periodLabel m results, e.2.isNaN = false :=
    fun e he => hnan e (hperm.mem_iff.mp he)
  unfold sortedServices at hnan2 ⊢
  refine (List.Pairwise.and_mem.mp hs).imp ?_
  intro a b hab
  obtain ⟨ha, hb, hlt⟩ := hab
  exact F64.ge_of_lt_false a.2 b.2 (hnan2 a ha) (hnan2 b hb) hlt

/-- Rows in `>=` order show amounts in descending order. -/
theorem pairwise_shown (rows : List (String × F64))
    (h : rows.Pairwise (fun a b => F64.ge a.2 b.2 = true)) :
    rows.Pairwise (fun a b => ∀ ca cb : Int, a.2.shown = some ca → b.2.shown = some cb →
      cb ≤ ca) := by
  refine h.imp ?_
  intro a b hge ca cb hca hcb
  apply F64.shown_mono a.2 b.2 ca cb _ hca hcb
  cases ha : a.2 <;> cases hb : b.2 <;> simp_all [F64.ge, F64.shown]

theorem insertBack_perm (less : String × F64 → String × F64 → Bool) (a : String × F64) :
    ∀ run, (insertBack less a run).Perm (a :: run) := by
  intro run
  induction run with
  | nil => exact List.Perm.refl _
  | cons y rest ih =>
    unfold insertBack
    split_ifs
    · exact ((List.Perm.cons y ih).trans (List.Perm.swap a y rest))
    · exact List.Perm.refl _

theorem insertionFold_perm (less : String × F64 → String × F64 → Bool) :
    ∀ (l run : List (String × F64)),
      (l.foldl (fun run a => insertBack less a run) run).Perm (l ++ run) := by
  intro l
  induction l with
  | nil => intro run; exact List.Perm.refl _
  | cons a l ih =>
    intro run
    rw [List.foldl_cons]
    refine (ih _).trans ?_
    refine (List.Perm.append_left l (insertBack_perm less a run)).trans ?_
    exact List.perm_middle

theorem insertionSortLessFunc_perm (less : String × F64 → String × F64 → Bool)
    (l : List (String × F64)) : (insertionSortLessFunc less l).Perm l := by
  unfold insertionSortLessFunc
  refine (List.reverse_perm _).trans ?_
  simpa using insertionFold_perm less l []

theorem insertBack_sorted (less : String × F64 → String × F64 → Bool) (l : List (String × F64))
    (hsw : StrictWeakOn less l) (a : String × F64) (ha : a ∈ l) :
    ∀ run, (∀ x ∈ run, x ∈ l) → run.Pairwise (fun x y => less x y = false) →
      (insertBack less a run).Pairwise (fun x y => less x y = false) := by
  obtain ⟨hirr, htr, hneg⟩ := hsw
  intro run
  induction run with
  | nil => intro _ _; simp [insertBack]
  | cons y rest ih =>
    intro hmem hp
    have hy : y ∈ l := hmem y (List.mem_cons_self _ _)
    have hrest : ∀ x ∈ rest, x ∈ l := fun x hx => hmem x (List.mem_cons_of_mem _ hx)
    rw [List.pairwise_cons] at hp
    unfold insertBack
    by_cases hlt : less a y = true
    · simp only [hlt, if_true]
      rw [List.pairwise_cons]
      refine ⟨?_, ih hrest hp.2⟩
      intro x hx
      rcases List.mem_cons.mp ((insertBack_perm less a rest).mem_iff.mp hx) with hxa | hxr
      · subst hxa
        by_contra hc
        have hc : less y x = true := by simpa using hc
        have := htr x ha y hy x ha hlt hc
        rw [hirr x ha] at this
        exact Bool.false_ne_true this
      · exact hp.1 x hxr
    · have hlt : less a y = false := by simpa using hlt
      simp only [hlt, Bool.false_eq_true, if_false]
      rw [List.pairwise_cons]
      refine ⟨?_, List.pairwise_cons.mpr hp⟩
      intro x hx
      rcases List.mem_cons.mp hx with hxy | hxr
      · subst hxy; exact hlt
      · exact hneg a ha y hy x (hrest x hxr) hlt (hp.1 x hxr)

theorem insertionFold_sorted (less : String × F64 → String × F64 → Bool)
    (l : List (String × F64)) (hsw : StrictWeakOn less l) :
    ∀ (todo run : List (String × F64)), (∀ x ∈ todo, x ∈ l) → (∀ x ∈ run, x ∈ l) →
      run.Pairwise (fun x y => less x y = false) →
      (todo.foldl (fun run a => insertBack less a run) run).Pairwise
        (fun x y => less x y = false) := by
  intro todo
  induction todo with
  | nil => intro run _ _ hp; exact hp
  | cons a todo ih =>
    intro run htodo hrun hp
    rw [List.foldl_cons]
    have ha : a ∈ l := htodo a (List.mem_cons_self _ _)
    refine ih _ (fun x hx => htodo x (List.mem_cons_of_mem _ hx)) ?_
      (insertBack_sorted less l hsw a ha run hrun hp)
    intro x hx
    rcases List.mem_cons.mp ((insertBack_perm less a run).mem_iff.mp hx) with h | h
    · subst h; exact ha
    · exact hrun x h

/-- Insertion sort meets the contract of `sort.Slice`. -/
theorem insertionSortLessFunc_sorted (less : String × F64 → String × F64 → Bool)
    (l : List (String × F64)) (hsw : StrictWeakOn less l) :
    (insertionSortLessFunc less l).Pairwise (fun a b => less b a = false) := by
  unfold insertionSortLessFunc
  rw [List.pairwise_reverse]
  exact insertionFold_sorted less l hsw l [] (fun _ h => h) (by simp) List.Pairwise.nil

/-- The concrete runtime meets the library contract. -/
theorem goRuntime_lawful : goRuntime.Lawful where
  mapRange_perm := fun _ => List.Perm.refl _
  sortSlice_perm := insertionSortLessFunc_perm
  sortSlice_sorted := insertionSortLessFunc_sorted

/-- The concrete runtime with reversed map order meets the library contract. -/
theorem goRuntimeRev_lawful : goRuntimeRev.Lawful where
  mapRange_perm := fun m => List.reverse_perm m
  sortSlice_perm := insertionSortLessFunc_perm
  sortSlice_sorted := insertionSortLessFunc_sorted

/-- The totals 100, 250 and 10 can only be listed in `>=` order as 250, 100, 10. -/
theorem sorted_example_unique (rows : List (String × F64))
    (hperm : rows.Perm [("A", ofNat 100), ("B", ofNat 250), ("C", ofNat 10)])
    (hsorted : rows.Pairwise (fun a b => F64.ge a.2 b.2 = true)) :
    rows = [("B", ofNat 250), ("A", ofNat 100), ("C", ofNat 10)] := by
  have hAB : F64.ge (ofNat 100) (ofNat 250) = false := by decide!
  have hCA : F64.ge (ofNat 10) (ofNat 100) = false := by decide!
  have hCB : F64.ge (ofNat 10) (ofNat 250) = false := by decide!
  have hBA : F64.ge (ofNat 250) (ofNat 100) = true := by decide!
  have hAC : F64.ge (ofNat 100) (ofNat 10) = true := by decide!
  have hBC : F64.ge (ofNat 250) (ofNat 10) = true := by decide!
  let L : List (String × F64) := [("A", ofNat 100), ("B", ofNat 250), ("C", ofNat 10)]
  let r : String × F64 → String × F64 → Prop :=
    fun a b => a ∈ L ∧ b ∈ L ∧ F64.ge a.2 b.2 = true
  have hanti : IsAntisymm (String × F64) r := by
    constructor
    intro a b hab hba
    obtain ⟨ha, hb, h1⟩ := hab
    obtain ⟨_, _, h2⟩ := hba
    simp only [L, List.mem_cons, List.mem_singleton, List.not_mem_nil, or_false] at ha hb
    rcases ha with rfl | rfl | rfl <;> rcases hb with rfl | rfl | rfl <;>
      simp_all
  have hs1 : rows.Sorted r := by
    refine (List.Pairwise.and_mem.mp hsorted).imp ?_
    intro a b hab
    exact ⟨hperm.mem_iff.mp hab.1, hperm.mem_iff.mp hab.2.1, hab.2.2⟩
  have hs2 : List.Sorted r [("B", ofNat 250), ("A", ofNat 100), ("C", ofNat 10)] := by
    simp [List.Sorted, r, L, hBA, hAC, hBC]
  have hperm2 : rows.Perm [("B", ofNat 250), ("A", ofNat 100), ("C", ofNat 10)] :=
    hperm.trans (List.Perm.swap _ _ _)
  exact List.eq_of_perm_of_sorted hperm2 hs1 hs2

/-- In ungrouped mode with results, the report is the header, the total line
and the separator, and the total is the running total of
`totalCost += amount * m` over the amounts, in bucket order. -/
theorem ungrouped_out (rt : GoRuntime) (periodLabel costMetric : String)
    (results : List ResultByTime) (metrics : List String) (m : F64) (hres : results ≠ []) :
    (processAndDisplayResults rt periodLabel results (costMetric :: metrics) [] m).out =
      [Line.resultsHeader periodLabel,
        Line.total costMetric periodLabel
          ((results.filterMap (bucketAmount rt costMetric)).foldl
            (fun acc amount => F64.mulAdd rt.fuseTotal acc amount m) F64.zero),
        Line.separator] := by
  unfold processAndDisplayResults
  have hl : ¬ results.length = 0 := by
    intro h; exact hres (List.length_eq_zero.mp h)
  simp [hl, totalLoop_fst]

/-- With the factor `1.0` the marked-up sum is the plain sum, fused or not. -/
theorem foldl_mul_one (fused : Bool) (l : List F64) (acc : F64) :
    l.foldl (fun acc amount => F64.mulAdd fused acc amount F64.one) acc =
      l.foldl F64.add acc := by
  induction l generalizing acc with
  | nil => rfl
  | cons a l ih => simp [List.foldl_cons, F64.mulAdd_one_eq, ih]

theorem lookup_cons_self (k : String) (x : F64) (rest : List (String × F64)) :
    List.lookup k ((k, x) :: rest) = some x := by
  simp [List.lookup]

theorem lookup_cons_ne (j k : String) (x : F64) (rest : List (String × F64)) (h : ¬ j = k) :
    List.lookup j ((k, x) :: rest) = List.lookup j rest := by
  have hb : (j == k) = false := by simpa using h
  simp [List.lookup, hb]

/-- Reading a key after `m[k] += e`. -/
theorem mapAddTo_lookup (f : F64 → F64) (k j : String) :
    ∀ totals : List (String × F64),
      (mapAddTo totals k f).lookup j =
        if j = k then some (f ((totals.lookup k).getD F64.zero)) else totals.lookup j := by
  intro totals
  induction totals with
  | nil =>
    by_cases h : j = k
    · subst h; simp [mapAddTo, lookup_cons_self]
    · simp [mapAddTo, lookup_cons_ne _ _ _ _ h, h]
  | cons e rest ih =>
    obtain ⟨k1, x⟩ := e
    unfold mapAddTo
    by_cases h1 : k1 = k
    · subst h1
      by_cases h : j = k1
      · subst h; simp [lookup_cons_self]
      · simp [lookup_cons_ne _ _ _ _ h, lookup_cons_self, h]
    · simp only [h1, if_false]
      have h1' : ¬ k = k1 := fun e => h1 e.symm
      by_cases h : j = k
      · subst h
        simp [lookup_cons_ne _ _ _ _ h1', ih]
      · by_cases h2 : j = k1
        · subst h2; simp [lookup_cons_self, h]
        · simp [lookup_cons_ne _ _ _ _ h2, h, ih]

/-- Each service's total is the running total of `m[k] += amount * m` over the
amounts booked on it, in order, starting from what the map held (or `0.0`). -/
theorem bookAll_lookup (fused : Bool) (m : F64) (k : String) :
    ∀ (entries totals : List (String × F64)),
      (bookAll fused m totals entries).lookup k =
        if amountsOf k entries = [] then totals.lookup k
        else some ((amountsOf k entries).foldl
          (fun acc amount => F64.mulAdd fused acc amount m)
          ((totals.lookup k).getD F64.zero)) := by
  intro entries
  induction entries with
  | nil => intro totals; simp [bookAll, amountsOf]
  | cons e es ih =>
    intro totals
    have hb : bookAll fused m totals (e :: es) =
        bookAll fused m (mapAddTo totals e.1 (fun x => F64.mulAdd fused x e.2 m)) es := by
      simp [bookAll]
    rw [hb, ih, mapAddTo_lookup]
    by_cases hk : e.1 = k
    · have ha : amountsOf k (e :: es) = e.2 :: amountsOf k es := by
        simp [amountsOf, List.filter_cons, hk]
      have hk' : k = e.1 := hk.symm
      rw [ha]
      subst hk'
      by_cases hes : amountsOf e.1 es = []
      · simp [hes]
      · simp [hes]
    · have ha : amountsOf k (e :: es) = amountsOf k es := by
        simp [amountsOf, List.filter_cons, hk]
      have hk' : ¬ k = e.1 := fun h => hk h.symm
      rw [ha]
      simp [hk']

/-- Each entry of `serviceTotals`: the running total of
`serviceTotals[k] += amount * m` over the contributions of service `k`. -/
theorem serviceTotals_lookup (rt : GoRuntime) (costMetric periodLabel : String) (m : F64)
    (results : List ResultByTime) (k : String) :
    (serviceTotals rt costMetric periodLabel m results).lookup k =
      if amountsOf k (contributions rt costMetric results) = [] then none
      else some (markedUpSum rt.fuseService m
        (amountsOf k (contributions rt costMetric results))) := by
  rw [serviceTotals_eq, bookAll_lookup]
  simp [markedUpSum, List.lookup]

/-! ## Entries that do not parse -/

/-- An entry whose amount does not parse is not a contribution. -/
theorem groupAmount_unparseable (rt : GoRuntime) (costMetric : String) (bad : Group)
    (serviceName : String) (ks : List String) (mv : MetricValue) (amountStr : String)
    (hk : bad.Keys = serviceName :: ks) (hm : bad.Metrics.lookup costMetric = some mv)
    (ha : mv.Amount = some amountStr) (hp : rt.ParseFloat amountStr = none) :
    groupAmount rt costMetric bad = none := by
  simp [groupAmount, hk, hm, ha, hp]

/-- For such an entry the loop body leaves the map alone and logs the warning. -/
theorem groupStep_unparseable (rt : GoRuntime) (costMetric periodLabel : String) (m : F64)
    (st : List (String × F64) × List LogLine) (bad : Group)
    (serviceName : String) (ks : List String) (mv : MetricValue) (amountStr : String)
    (hk : bad.Keys = serviceName :: ks) (hm : bad.Metrics.lookup costMetric = some mv)
    (ha : mv.Amount = some amountStr) (hp : rt.ParseFloat amountStr = none) :
    groupStep rt costMetric periodLabel m st bad =
      (st.1, st.2 ++ [LogLine.warnService amountStr serviceName periodLabel]) := by
  simp [groupStep, hk, hm, ha, hp]

theorem groupStep_log_mono (rt : GoRuntime) (costMetric periodLabel : String) (m : F64)
    (st : List (String × F64) × List LogLine) (g : Group) (x : LogLine) (hx : x ∈ st.2) :
    x ∈ (groupStep rt costMetric periodLabel m st g).2 := by
  unfold groupStep
  cases g.Keys with
  | nil => exact hx
  | cons k ks =>
    simp only []
    cases g.Metrics.lookup costMetric with
    | none => exact hx
    | some mv =>
      simp only []
      cases mv.Amount with
      | none => exact hx
      | some a =>
        simp only []
        cases rt.ParseFloat a with
        | none => exact List.mem_append_left _ hx
        | some v => exact hx

theorem groupLoop_log_mono (rt : GoRuntime) (costMetric periodLabel : String) (m : F64)
    (x : LogLine) :
    ∀ (groups : List Group) (st : List (String × F64) × List LogLine), x ∈ st.2 →
      x ∈ (groups.foldl (groupStep rt costMetric periodLabel m) st).2 := by
  intro groups
  induction groups with
  | nil => intro st hx; exact hx
  | cons g gs ih =>
    intro st hx
    rw [List.foldl_cons]
    exact ih _ (groupStep_log_mono rt costMetric periodLabel m st g x hx)

theorem accumulate_log_mono (rt : GoRuntime) (costMetric periodLabel : String) (m : F64)
    (x : LogLine) :
    ∀ (results : List ResultByTime) (st : List (String × F64) × List LogLine), x ∈ st.2 →
      x ∈ (results.foldl
        (fun st timePeriod =>
          timePeriod.Groups.foldl (groupStep rt costMetric periodLabel m) st) st).2 := by
  intro results
  induction results with
  | nil => intro st hx; exact hx
  | cons r rs ih =>
    intro st hx
    rw [List.foldl_cons]
    exact ih _ (groupLoop_log_mono rt costMetric periodLabel m x r.Groups st hx)

/-- The warning for an unparseable entry is in the log of the loops. -/
theorem accumulate_warns (rt : GoRuntime) (costMetric periodLabel : String) (m : F64)
    (pre post : List ResultByTime) (tp : ResultByTime) (gpre gpost : List Group) (bad : Group)
    (serviceName : String) (ks : List String) (mv : MetricValue) (amountStr : String)
    (hk : bad.Keys = serviceName :: ks) (hm : bad.Metrics.lookup costMetric = some mv)
    (ha : mv.Amount = some amountStr) (hp : rt.ParseFloat amountStr = none) :
    LogLine.warnService amountStr serviceName periodLabel ∈
      (accumulateServices rt costMetric periodLabel m
        (pre ++ { tp with Groups := gpre ++ bad :: gpost } :: post)).2 := by
  unfold accumulateServices
  rw [List.foldl_append, List.foldl_cons]
  apply accumulate_log_mono
  simp only [List.foldl_append, List.foldl_cons]
  apply groupLoop_log_mono
  rw [groupStep_unparseable rt costMetric periodLabel m _ bad serviceName ks mv amountStr
    hk hm ha hp]
  simp

/-- Dropping an unparseable entry changes no contribution. -/
theorem contributions_unparseable (rt : GoRuntime) (costMetric : String)
    (pre post : List ResultByTime) (tp : ResultByTime) (gpre gpost : List Group) (bad : Group)
    (hbad : groupAmount rt costMetric bad = none) :
    contributions rt costMetric (pre ++ { tp with Groups := gpre ++ bad :: gpost } :: post) =
      contributions rt costMetric (pre ++ { tp with Groups := gpre ++ gpost } :: post) := by
  simp [contributions, List.filterMap_append, List.filterMap_cons, hbad]

/-! ## The claims

### getCostData -/

/-- C1. When the billing API answers the calls of `getCostData` with
`pages.length + 1` successful pages, of which all but the last carry a
continuation token and the last carries none, then (given fuel for that many
calls) `getCostData` returns, without error, the concatenation of the pages'
`ResultsByTime` in page order; it makes exactly `pages.length + 1` calls, each
for the requested period and configuration; the `NextPageToken` of the first
request is nil and that of each later request is the token of the page before
it; and there is no call after the page without a token. -/
theorem getCostData_pagination (client : Client) (fuel : Nat) (st : ApiState)
    (startDate endDate : String) (granularity : Granularity) (metrics : List String)
    (groupBy : List GroupDefinition) (filter : Option Expression)
    (pages : List GetCostAndUsageOutput) (last : GetCostAndUsageOutput)
    (hresp : ∀ i p, (pages ++ [last])[i]? = some p → client (st.next + i) = Except.ok p)
    (htok : ∀ p ∈ pages, p.NextPageToken ≠ none)
    (hlast : last.NextPageToken = none)
    (hfuel : pages.length + 1 ≤ fuel) :
    getCostData client fuel st startDate endDate granularity metrics groupBy filter =
      (some (((pages ++ [last]).map (fun p => p.ResultsByTime)).flatten, none),
        { next := st.next + (pages.length + 1)
          calls := st.calls ++ (none :: pages.map (fun p => p.NextPageToken)).map
            (fun token =>
              { TimePeriod := some { Start := some startDate, End := some endDate }
                Granularity := granularity
                Metrics := metrics
                NextPageToken := token
                GroupBy := groupBy
                Filter := filter }) }) := by
  unfold getCostData
  have h := getCostDataLoop_pages client startDate endDate granularity metrics groupBy filter
    last hlast pages fuel st [] none hresp htok hfuel
  have hin : getCostDataInput startDate endDate granularity metrics groupBy filter =
      (fun token =>
        { TimePeriod := some { Start := some startDate, End := some endDate }
          Granularity := granularity
          Metrics := metrics
          NextPageToken := token
          GroupBy := groupBy
          Filter := filter }) := by
    funext token
    exact getCostDataInput_eq startDate endDate granularity metrics groupBy filter token
  rw [hin] at h
  simpa using h

/-- Three pages, the first two with a token: the three buckets come back in
order after three calls for April 2025 whose tokens are nil, `t1` and `t2`. -/
theorem getCostData_pagination_witness :
    getCostData
        (scriptedClient [Except.ok (page [totalBucket "1"] (some "t1")),
          Except.ok (page [totalBucket "2"] (some "t2")),
          Except.ok (page [totalBucket "3"] none)])
        3 { next := 0, calls := [] } "2025-04-01" "2025-05-01"
        reportGranularity reportMetrics reportGroupBy reportFilter =
      (some ([totalBucket "1", totalBucket "2", totalBucket "3"], none),
        { next := 3
          calls := [reportRequest "2025-04-01" "2025-05-01" none,
            reportRequest "2025-04-01" "2025-05-01" (some "t1"),
            reportRequest "2025-04-01" "2025-05-01" (some "t2")] }) := by
  have h := getCostData_pagination
    (scriptedClient [Except.ok (page [totalBucket "1"] (some "t1")),
      Except.ok (page [totalBucket "2"] (some "t2")),
      Except.ok (page [totalBucket "3"] none)])
    3 { next := 0, calls := [] } "2025-04-01" "2025-05-01"
    reportGranularity reportMetrics reportGroupBy reportFilter
    [page [totalBucket "1"] (some "t1"), page [totalBucket "2"] (some "t2")]
    (page [totalBucket "3"] none)
    (by
      intro i p hp
      rcases i with _ | _ | _ | i <;> simp_all [scriptedClient])
    (by simp [page])
    rfl
    (by simp)
  simpa [page, reportRequest, reportGranularity, reportMetrics, reportGroupBy, reportFilter]
    using h

/-- C7. When the billing API answers the calls of `getCostData` with
`pages.length` successful pages that all carry a continuation token and then
with an error, `getCostData` returns the nil slice together with an error
that wraps the API error and whose text names the requested start and end
dates; the buckets of the earlier pages are not returned, and the failing
call is the last one made. -/
theorem getCostData_error (client : Client) (fuel : Nat) (st : ApiState)
    (startDate endDate : String) (granularity : Granularity) (metrics : List String)
    (groupBy : List GroupDefinition) (filter : Option Expression)
    (pages : List GetCostAndUsageOutput) (err : ApiError)
    (hresp : ∀ i p, pages[i]? = some p → client (st.next + i) = Except.ok p)
    (herr : client (st.next + pages.length) = Except.error err)
    (htok : ∀ p ∈ pages, p.NextPageToken ≠ none)
    (hfuel : pages.length + 1 ≤ fuel) :
    getCostData client fuel st startDate endDate granularity metrics groupBy filter =
      (some ([], some
          { msg := "failed to get cost and usage for " ++ startDate ++ " to " ++ endDate ++
              ": " ++ err.msg
            unwrap := err }),
        { next := st.next + (pages.length + 1)
          calls := st.calls ++ (none :: pages.map (fun p => p.NextPageToken)).map
            (getCostDataInput startDate endDate granularity metrics groupBy filter) }) := by
  unfold getCostData
  have h := getCostDataLoop_error client startDate endDate granularity metrics groupBy filter
    err pages fuel st [] none hresp herr htok hfuel
  simpa [fetchError] using h

/-- Two pages with buckets, then an error on the third call: nothing is
returned but the wrapped error, after exactly three calls. -/
theorem getCostData_error_witness :
    getCostData
        (scriptedClient [Except.ok (page [totalBucket "1"] (some "t1")),
          Except.ok (page [totalBucket "2"] (some "t2")),
          Except.error { msg := "ThrottlingException" },
          Except.ok (page [totalBucket "4"] none)])
        10 { next := 0, calls := [] } "2025-04-01" "2025-05-01"
        reportGranularity reportMetrics reportGroupBy reportFilter =
      (some ([], some
          { msg := "failed to get cost and usage for 2025-04-01 to 2025-05-01: " ++
              "ThrottlingException"
            unwrap := { msg := "ThrottlingException" } }),
        { next := 3
          calls := [none, some "t1", some "t2"].map
            (getCostDataInput "2025-04-01" "2025-05-01" reportGranularity reportMetrics
              reportGroupBy reportFilter) }) := by
  have h := getCostData_error
    (scriptedClient [Except.ok (page [totalBucket "1"] (some "t1")),
      Except.ok (page [totalBucket "2"] (some "t2")),
      Except.error { msg := "ThrottlingException" },
      Except.ok (page [totalBucket "4"] none)])
    10 { next := 0, calls := [] } "2025-04-01" "2025-05-01"
    reportGranularity reportMetrics reportGroupBy reportFilter
    [page [totalBucket "1"] (some "t1"), page [totalBucket "2"] (some "t2")]
    { msg := "ThrottlingException" }
    (by
      intro i p hp
      rcases i with _ | _ | i <;> simp_all [scriptedClient])
    (by simp [scriptedClient])
    (by simp [page])
    (by simp)
  simpa [page] using h

/-! ### processAndDisplayResults: safety -/

/-- C10. If `results` is empty, or if `metrics` is non-empty and the first
definition of a non-empty `groupBy` has a non-nil `Key`, then
`processAndDisplayResults` hits neither the index `metrics[0]` out of range nor
the nil dereference `*groupBy[0].Key`, whatever the buckets hold, and the last
line it prints is the separator. -/
theorem processAndDisplayResults_no_panic (rt : GoRuntime) (periodLabel : String)
    (results : List ResultByTime) (metrics : List String) (groupBy : List GroupDefinition)
    (markup : F64)
    (h : results = [] ∨ (metrics ≠ [] ∧ ∀ g, groupBy.head? = some g → g.Key ≠ none)) :
    (processAndDisplayResults rt periodLabel results metrics groupBy markup).panic = none ∧
      (processAndDisplayResults rt periodLabel results metrics groupBy markup).out.getLast? =
        some Line.separator :=
  processAndDisplayResults_completes rt periodLabel results metrics groupBy markup h

/-- Buckets with no total, a nil amount, a group without keys and a group
without the metric, grouped by SERVICE: no panic, separator last. And no
results with no metrics: the same. -/
theorem processAndDisplayResults_no_panic_witness :
    ((processAndDisplayResults goRuntime "P"
        [{ Estimated := false, Groups := [], TimePeriod := none, Total := [] },
          groupedBucket [{ Keys := [], Metrics := [] },
            { Keys := ["S3"], Metrics := [] },
            { Keys := ["EC2"], Metrics := [("UnblendedCost", { Amount := none, Unit := none })] }]]
        ["UnblendedCost"] reportGroupBy F64.one).panic = none ∧
      (processAndDisplayResults goRuntime "P"
        [{ Estimated := false, Groups := [], TimePeriod := none, Total := [] },
          groupedBucket [{ Keys := [], Metrics := [] },
            { Keys := ["S3"], Metrics := [] },
            { Keys := ["EC2"], Metrics := [("UnblendedCost", { Amount := none, Unit := none })] }]]
        ["UnblendedCost"] reportGroupBy F64.one).out.getLast? = some Line.separator) ∧
    ((processAndDisplayResults goRuntime "P" [] [] [] F64.one).panic = none ∧
      (processAndDisplayResults goRuntime "P" [] [] [] F64.one).out.getLast? =
        some Line.separator) :=
  ⟨processAndDisplayResults_no_panic goRuntime "P" _ ["UnblendedCost"] reportGroupBy F64.one
      (Or.inr ⟨by simp, by simp [reportGroupBy]⟩),
    processAndDisplayResults_no_panic goRuntime "P" [] [] [] F64.one (Or.inl rfl)⟩

/-! ### main: markup -/

/-- C6. The multiplier of line 177 is `1.0` when `AWS_MARGIN` is empty and
when it does not parse, and `1.0 + p / 100.0` (float64 operations, no
clamping, whatever the sign of `p`) when it parses as `p`; for `p = 0`
(either zero) that is `1.0`; and multiplying any amount by `1.0` gives the
amount itself. -/
theorem markupMultiplier_spec (rt : GoRuntime) (marginStr : String) :
    markupMultiplier rt marginStr =
        (if marginStr = "" then F64.one
          else match rt.ParseFloat marginStr with
            | none => F64.one
            | some p => F64.add F64.one (F64.div p F64.hundred)) ∧
      F64.add F64.one (F64.div F64.zero F64.hundred) = F64.one ∧
      F64.add F64.one (F64.div negZero F64.hundred) = F64.one ∧
      ∀ amount : F64, F64.mul amount F64.one = amount := by
  have hz : F64.add F64.one (F64.div F64.zero F64.hundred) = F64.one := by decide!
  refine ⟨?_, hz, by decide!, F64.mul_one_eq⟩
  unfold markupMultiplier readMargin
  by_cases he : marginStr = ""
  · simp only [he, if_true]
    exact hz
  · simp only [he, if_false]
    cases hp : rt.ParseFloat marginStr with
    | none => exact hz
    | some p =>
      simp only []
      by_cases hneg : F64.lt p F64.zero = true
      · simp [hneg]
      · simp [hneg]

/-! ### main: periods -/

/-- C9. For a reference date with a valid month, lines 186-192 give: the
previous month starts on the first day of the month before the reference
month (December of the year before for January); it ends where the current
month starts, on the first day of the reference month; the current month ends
on the first day of the following month (January of the next year for
December); and each end is `AddDate(0, 1, 0)` of the start. -/
theorem periods_spec (now : Time) (h1 : 1 ≤ now.month) (h12 : now.month ≤ 12) :
    (periods now).previousMonthStart = previousMonthStartOf now ∧
      (periods now).previousMonthStartStr = (previousMonthStartOf now).Format ∧
      (periods now).previousMonthEndAPI = (monthStart now).Format ∧
      (periods now).currentMonthStart = monthStart now ∧
      (periods now).currentMonthStartStr = (monthStart now).Format ∧
      (periods now).currentMonthEndAPI = (nextMonthStart now).Format ∧
      (previousMonthStartOf now).AddDate 0 1 = monthStart now ∧
      (monthStart now).AddDate 0 1 = nextMonthStart now := by
  have hp := periods_eq now h1 h12
  obtain ⟨y, m, d⟩ := now
  simp only at h1 h12
  rw [hp]
  refine ⟨rfl, rfl, rfl, rfl, rfl, rfl, ?_, ?_⟩
  · unfold previousMonthStartOf Time.AddDate monthStart
    simp only [Int.add_zero]
    by_cases hm : m = 1
    · subst hm
      have := (timeDate_cases (y - 1) 13 1).2.1 rfl
      simpa using this
    · simp only [hm, if_false]
      have := (timeDate_cases y (m - 1 + 1) 1).1 (by omega) (by omega)
      simpa using this
  · unfold nextMonthStart Time.AddDate monthStart
    simp only [Int.add_zero]
    by_cases hm : m = 12
    · subst hm
      have := (timeDate_cases y 13 1).2.1 rfl
      simpa using this
    · simp only [hm, if_false]
      exact (timeDate_cases y (m + 1) 1).1 (by omega) (by omega)

/-- January 2025 and December 2025: the previous month of January starts on
2024-12-01, the current month of December ends on 2026-01-01. -/
theorem periods_spec_witness :
    ((periods { year := 2025, month := 1, day := 15 }).previousMonthStartStr = "2024-12-01" ∧
      (periods { year := 2025, month := 1, day := 15 }).previousMonthEndAPI = "2025-01-01" ∧
      (periods { year := 2025, month := 1, day := 15 }).currentMonthEndAPI = "2025-02-01") ∧
    ((periods { year := 2025, month := 12, day := 15 }).previousMonthStartStr = "2025-11-01" ∧
      (periods { year := 2025, month := 12, day := 15 }).currentMonthStartStr = "2025-12-01" ∧
      (periods { year := 2025, month := 12, day := 15 }).currentMonthEndAPI = "2026-01-01") := by
  have hj := periods_spec { year := 2025, month := 1, day := 15 } (by decide) (by decide)
  have hd := periods_spec { year := 2025, month := 12, day := 15 } (by decide) (by decide)
  refine ⟨⟨?_, ?_, ?_⟩, ⟨?_, ?_, ?_⟩⟩
  · rw [hj.2.1]; decide
  · rw [hj.2.2.1]; decide
  · rw [hj.2.2.2.2.2.1]; decide
  · rw [hd.2.1]; decide
  · rw [hd.2.2.2.2.1]; decide
  · rw [hd.2.2.2.2.2.1]; decide

/-! ### main: the current month -/

/-- C8, as the code has it. The reference instant of `main` is the constant
1 May 2025 of line 183, whatever the date of the run. Take a run of the body
of `main` for a reference date `now` in which the SDK configuration loads and
the fetch for the previous month returns. If the day of `now` is 1, no further
API call is made (the API state is the one the previous-month fetch left), the
run returns, and its last three lines are the current-month header, the "check
back tomorrow" notice and the separator. On any other day the line announcing
the current-month fetch is printed and `getCostData` is called for the period
from the first day of the reference month to the first day of the following
month; with fuel for at least one call, the call after those of the previous
month is the request whose `TimePeriod` starts and ends on those two days,
with the report's granularity, metric and grouping and no token. -/
theorem main_current_month (rt : GoRuntime) (w : World) (fuel : Nat) (now : Time)
    (h1 : 1 ≤ now.month) (h12 : now.month ≤ 12)
    (hcfg : w.configError = none)
    (prev : List ResultByTime × Option WrappedError) (api1 : ApiState)
    (hprev : getCostData w.client fuel { next := 0, calls := [] }
        (previousMonthStartOf now).Format (monthStart now).Format
        reportGranularity reportMetrics reportGroupBy reportFilter = (some prev, api1)) :
    main rt w fuel = mainAt rt w fuel { year := 2025, month := 5, day := 1 } ∧
      (now.day = 1 →
        (mainAt rt w fuel now).api = api1 ∧
        (mainAt rt w fuel now).exit = Exit.returned ∧
        ∃ before, (mainAt rt w fuel now).out =
          before ++ [Line.currentHeader, Line.firstOfMonth, Line.separator]) ∧
      (now.day ≠ 1 →
        (mainAt rt w fuel now).api =
          (getCostData w.client fuel api1 (monthStart now).Format (nextMonthStart now).Format
            reportGranularity reportMetrics reportGroupBy reportFilter).2 ∧
        Line.fetchingCurrent (monthStart now).Format (nextMonthStart now).Format ∈
          (mainAt rt w fuel now).out ∧
        (0 < fuel → (mainAt rt w fuel now).api.calls[api1.calls.length]? =
          some
            { TimePeriod := some
                { Start := some (monthStart now).Format, End := some (nextMonthStart now).Format }
              Granularity := Granularity.MONTHLY
              Metrics := ["UnblendedCost"]
              NextPageToken := none
              GroupBy := [{ Key := some "SERVICE", Typ := GroupDefinitionType.DIMENSION }]
              Filter := none })) := by
  have hp := periods_eq now h1 h12
  have hpd : (periods now).currentDay = now.day := by rw [hp]
  have hps : (periods now).previousMonthStartStr = (previousMonthStartOf now).Format := by
    rw [hp]; rfl
  have hpe : (periods now).previousMonthEndAPI = (monthStart now).Format := by rw [hp]; rfl
  have hcs : (periods now).currentMonthStartStr = (monthStart now).Format := by rw [hp]; rfl
  have hce : (periods now).currentMonthEndAPI = (nextMonthStart now).Format := by rw [hp]; rfl
  obtain ⟨results, err⟩ := prev
  -- what `main` does after the previous-month fetch is the current-month part
  have hmain : ∃ out log, mainAt rt w fuel now =
      currentMonthPart rt w fuel (periods now) (markupMultiplier rt w.AWS_MARGIN) out log api1 := by
    unfold mainAt
    simp only [hcfg, hps, hpe, hprev]
    cases err with
    | some e => exact ⟨_, _, rfl⟩
    | none =>
      simp only []
      have hnp := (processAndDisplayResults_completes rt
        ("Previous Month (" ++ (periods now).previousMonthStart.FormatJan2006 ++ ")")
        results reportMetrics reportGroupBy (markupMultiplier rt w.AWS_MARGIN)
        (Or.inr ⟨by simp [reportMetrics], by simp [reportGroupBy]⟩)).1
      rw [hnp]
      exact ⟨_, _, rfl⟩
  obtain ⟨out, log, hm⟩ := hmain
  rw [hm]
  refine ⟨rfl, ?_, ?_⟩
  · intro hday
    rw [currentMonthPart_first rt w fuel (periods now) _ out log api1 (by rw [hpd]; exact hday)]
    exact ⟨rfl, rfl, out, rfl⟩
  · intro hday
    have h := currentMonthPart_other rt w fuel (periods now)
      (markupMultiplier rt w.AWS_MARGIN) out log api1 (by rw [hpd]; exact hday)
    rw [hcs, hce] at h
    refine ⟨h.1, h.2, ?_⟩
    intro hfuel
    rw [h.1]
    obtain ⟨rest, hrest, hhead⟩ := getCostDataLoop_calls w.client (monthStart now).Format
      (nextMonthStart now).Format reportGranularity reportMetrics reportGroupBy reportFilter
      fuel api1 [] none
    unfold getCostData
    rw [hrest]
    have hh := hhead hfuel
    cases rest with
    | nil => simp at hh
    | cons a t =>
      simp only [List.head?_cons, Option.some.injEq] at hh
      subst hh
      rw [List.getElem?_append_right (le_refl _), getCostDataInput_eq]
      simp [reportGranularity, reportMetrics, reportGroupBy, reportFilter]

/-- The program as written, run on 15 May 2025: it makes the one call for
April and returns after the notice. The body of `main` for the reference date
15 May 2025: its second call asks for 2025-05-01 to 2025-06-01. -/
theorem main_current_month_witness :
    ((main goRuntime exampleWorld 5).api =
        { next := 1, calls := [reportRequest "2025-04-01" "2025-05-01" none] } ∧
      (main goRuntime exampleWorld 5).exit = Exit.returned ∧
      ∃ before, (main goRuntime exampleWorld 5).out =
        before ++ [Line.currentHeader, Line.firstOfMonth, Line.separator]) ∧
    (mainAt goRuntime exampleWorld 5 { year := 2025, month := 5, day := 15 }).api.calls[1]? =
      some (reportRequest "2025-05-01" "2025-06-01" none) := by
  have hfirst := main_current_month goRuntime exampleWorld 5 now (by decide) (by decide) rfl
    ([groupedBucket [serviceGroup "EC2" "100.00", serviceGroup "S3" "50.00"]], none)
    { next := 1, calls := [reportRequest "2025-04-01" "2025-05-01" none] } (by decide)
  have hlater := main_current_month goRuntime exampleWorld 5
    { year := 2025, month := 5, day := 15 } (by decide) (by decide) rfl
    ([groupedBucket [serviceGroup "EC2" "100.00", serviceGroup "S3" "50.00"]], none)
    { next := 1, calls := [reportRequest "2025-04-01" "2025-05-01" none] } (by decide)
  refine ⟨hfirst.2.1 rfl, ?_⟩
  have h := (hlater.2.2 (by decide)).2.2 (by decide)
  have hs : (monthStart { year := 2025, month := 5, day := 15 }).Format = "2025-05-01" := by
    decide
  have he : (nextMonthStart { year := 2025, month := 5, day := 15 }).Format = "2025-06-01" := by
    decide
  rw [hs, he] at h
  exact h

/-- C8 as stated fails. With a configuration that does not load, `main`
(reference day 1) prints nothing, so no notice, and exits; and the body of
`main` for the reference date 15 May 2025 makes no API call, so no fetch is
attempted. And on a run of 15 May 2025 with a configuration that loads, the
program still takes 1 May 2025 for its reference date: its only call is the one
for April, and it ends with the notice. -/
theorem main_current_month_counterexample :
    ((main goRuntime { exampleWorld with configError := some "no credentials" } 5).out = [] ∧
      (main goRuntime { exampleWorld with configError := some "no credentials" } 5).exit =
        Exit.fatal) ∧
    ((mainAt goRuntime { exampleWorld with configError := some "no credentials" } 5
        { year := 2025, month := 5, day := 15 }).api.calls = [] ∧
      (mainAt goRuntime { exampleWorld with configError := some "no credentials" } 5
        { year := 2025, month := 5, day := 15 }).exit = Exit.fatal) ∧
    (exampleWorld.today = { year := 2025, month := 5, day := 15 } ∧
      exampleWorld.configError = none ∧
      (main goRuntime exampleWorld 5).api.calls =
        [reportRequest "2025-04-01" "2025-05-01" none] ∧
      ((main goRuntime exampleWorld 5).out.map Line.render).reverse.take 3 =
        [(Line.separator).render,
          "Today is the 1st of the month. Check back tomorrow to see this month's usage data.",
          "--- Current Month Results ---"]) := by
  refine ⟨⟨by decide, by decide⟩, ⟨by decide, by decide⟩, rfl, rfl, by decide!, by decide!⟩

/-! ### processAndDisplayResults: grouped mode -/

/-- Grouped rows when no total is NaN. In SERVICE mode with at least one time
bucket, and with `range` and `sort.Slice` behaving as documented, the report
is the header lines, one row per element of `sortedServices`, the rule and the
total row; the rows are exactly the entries of the map `serviceTotals`, each
service once; if no total is NaN, every row's amount is `>=` the amount of
every later row, and so are the amounts as shown with two decimals; and for
the totals A: 100, B: 250, C: 10 the rows are B, A, C. -/
theorem grouped_rows_descending (rt : GoRuntime) (hrt : rt.Lawful)
    (periodLabel costMetric : String) (results : List ResultByTime) (metrics : List String)
    (g : GroupDefinition) (groupBy : List GroupDefinition) (markup : F64)
    (hres : results ≠ []) (hkey : g.Key = some "SERVICE") :
    (processAndDisplayResults rt periodLabel results (costMetric :: metrics) (g :: groupBy)
        markup).out =
        groupedReport periodLabel costMetric
          (sortedServices rt costMetric periodLabel markup results) ∧
      (sortedServices rt costMetric periodLabel markup results).Perm
        (serviceTotals rt costMetric periodLabel markup results) ∧
      ((sortedServices rt costMetric periodLabel markup results).map Prod.fst).Nodup ∧
      ((∀ e ∈ serviceTotals rt costMetric periodLabel markup results, e.2.isNaN = false) →
        (sortedServices rt costMetric periodLabel markup results).Pairwise
          (fun a b => F64.ge a.2 b.2 = true) ∧
        (sortedServices rt costMetric periodLabel markup results).Pairwise
          (fun a b => ∀ ca cb : Int, a.2.shown = some ca → b.2.shown = some cb → cb ≤ ca)) ∧
      ((serviceTotals rt costMetric periodLabel markup results).Perm
          [("A", ofNat 100), ("B", ofNat 250), ("C", ofNat 10)] →
        sortedServices rt costMetric periodLabel markup results =
          [("B", ofNat 250), ("A", ofNat 100), ("C", ofNat 10)]) := by
  have hperm := sortedServices_perm rt hrt costMetric periodLabel markup results
  refine ⟨grouped_out rt periodLabel costMetric results metrics g groupBy markup hres hkey,
    hperm, ?_, ?_, ?_⟩
  · exact (hperm.map Prod.fst).nodup_iff.mpr
      (serviceTotals_nodup rt costMetric periodLabel markup results)
  · intro hnan
    have hs := sortedServices_sorted rt hrt costMetric periodLabel markup results hnan
    exact ⟨hs, pairwise_shown _ hs⟩
  · intro hex
    apply sorted_example_unique _ (hperm.trans hex)
    apply sortedServices_sorted rt hrt costMetric periodLabel markup results
    intro e he
    have he2 := hex.mem_iff.mp he
    simp only [List.mem_cons, List.mem_singleton, List.not_mem_nil, or_false] at he2
    have h1 : (ofNat 100).isNaN = false := by decide!
    have h2 : (ofNat 250).isNaN = false := by decide!
    have h3 : (ofNat 10).isNaN = false := by decide!
    rcases he2 with rfl | rfl | rfl
    · exact h1
    · exact h2
    · exact h3

/-- One bucket with A: 100, B: 250, C: 10 and no markup, on the concrete
runtime: the rows are B, A, C, whatever order the map is ranged in. -/
theorem grouped_rows_descending_witness :
    sortedServices goRuntime "UnblendedCost" "P" F64.one
        [groupedBucket [serviceGroup "A" "100", serviceGroup "B" "250", serviceGroup "C" "10"]] =
      [("B", ofNat 250), ("A", ofNat 100), ("C", ofNat 10)] ∧
    sortedServices goRuntimeRev "UnblendedCost" "P" F64.one
        [groupedBucket [serviceGroup "A" "100", serviceGroup "B" "250", serviceGroup "C" "10"]] =
      [("B", ofNat 250), ("A", ofNat 100), ("C", ofNat 10)] := by
  have h1 : serviceTotals goRuntime "UnblendedCost" "P" F64.one
      [groupedBucket [serviceGroup "A" "100", serviceGroup "B" "250", serviceGroup "C" "10"]] =
      [("A", ofNat 100), ("B", ofNat 250), ("C", ofNat 10)] := by decide!
  have h2 : serviceTotals goRuntimeRev "UnblendedCost" "P" F64.one
      [groupedBucket [serviceGroup "A" "100", serviceGroup "B" "250", serviceGroup "C" "10"]] =
      [("A", ofNat 100), ("B", ofNat 250), ("C", ofNat 10)] := by decide!
  exact ⟨(grouped_rows_descending goRuntime goRuntime_lawful "P" "UnblendedCost" _ []
      { Key := some "SERVICE", Typ := GroupDefinitionType.DIMENSION } [] F64.one
      (by simp) rfl).2.2.2.2 (by rw [h1]),
    (grouped_rows_descending goRuntimeRev goRuntimeRev_lawful "P" "UnblendedCost" _ []
      { Key := some "SERVICE", Typ := GroupDefinitionType.DIMENSION } [] F64.one
      (by simp) rfl).2.2.2.2 (by rw [h2])⟩

/-- C2. The comment of line 125 announces a sort by value, descending, and
the code does not deliver it when a total is NaN, since `Value > Value` is
false on NaN both ways. Three services with amounts 1, NaN and 2 (`ParseFloat`
accepts the text `NaN`), no markup, map ranged in insertion order, insertion
sort (what `sort.Slice` runs on three elements): the rows come out as 1.00,
NaN, 2.00, so the row of 2.00 stands below the row of 1.00, although the
runtime keeps the library contract. -/
theorem grouped_rows_not_descending :
    goRuntime.Lawful ∧
      (processAndDisplayResults goRuntime "P"
        [groupedBucket [serviceGroup "A" "1", serviceGroup "B" "NaN", serviceGroup "C" "2"]]
        reportMetrics reportGroupBy F64.one).out =
        groupedReport "P" "UnblendedCost"
          [("A", ofNat 1), ("B", F64.nan), ("C", ofNat 2)] ∧
      ((groupedReport "P" "UnblendedCost"
          [("A", ofNat 1), ("B", F64.nan), ("C", ofNat 2)]).map Line.render).take 7 =
        ["--- P Results ---", "Cost Summary by Service (P):",
          "  Service                                              UnblendedCost",
          "  -------------------------------------------------- ---------------",
          "  A                                                             1.00",
          "  B                                                              NaN",
          "  C                                                             2.00"] ∧
      F64.lt (ofNat 1) (ofNat 2) = true ∧
      ¬ [("A", ofNat 1), ("B", F64.nan), ("C", ofNat 2)].Pairwise
          (fun a b => F64.ge a.2 b.2 = true) := by
  refine ⟨goRuntime_lawful, by decide!, by decide!, by decide!, ?_⟩
  intro h
  have h12 := (List.pairwise_cons.mp h).1 ("B", F64.nan) (by simp)
  rw [F64.ge_nan_right] at h12
  exact Bool.false_ne_true h12

/-- C3, as the code has it. In SERVICE mode with at least one time bucket the
report ends with the rule, the row "Total (Sum of Services)" and the
separator, and the amount on that row is `overallTotal`: the float64 sum,
added in row order from `0.0`, of the unrounded amounts of the rows, rendered
with two decimals only once. With a single row whose amount is not `-0` it
is the amount of that row. -/
theorem grouped_total_row (rt : GoRuntime) (periodLabel costMetric : String)
    (results : List ResultByTime) (metrics : List String) (g : GroupDefinition)
    (groupBy : List GroupDefinition) (markup : F64)
    (hres : results ≠ []) (hkey : g.Key = some "SERVICE") :
    (processAndDisplayResults rt periodLabel results (costMetric :: metrics) (g :: groupBy)
        markup).out =
        [Line.resultsHeader periodLabel, Line.summaryTitle periodLabel,
            Line.textRow "Service" costMetric, Line.textRow ruleLeft ruleRight]
          ++ (sortedServices rt costMetric periodLabel markup results).map
            (fun kvPair => Line.amountRow kvPair.1 kvPair.2)
          ++ [Line.textRow ruleLeft ruleRight,
            Line.amountRow "Total (Sum of Services)"
              (((sortedServices rt costMetric periodLabel markup results).map Prod.snd).foldl
                F64.add F64.zero),
            Line.separator] ∧
      ∀ (service : String) (value : F64),
        sortedServices rt costMetric periodLabel markup results = [(service, value)] →
        value ≠ negZero →
        ((sortedServices rt costMetric periodLabel markup results).map Prod.snd).foldl
          F64.add F64.zero = value := by
  refine ⟨grouped_out rt periodLabel costMetric results metrics g groupBy markup hres hkey, ?_⟩
  intro service value hrows hneg
  rw [hrows]
  simp only [List.map_cons, List.map_nil, List.foldl_cons, List.foldl_nil]
  exact F64.zero_add_eq value (fun h => hneg)

/-- One service with amount 12.34 and no markup: one row and a total row, both
showing 12.34. -/
theorem grouped_total_row_witness :
    ((processAndDisplayResults goRuntime "P" [groupedBucket [serviceGroup "EC2" "12.34"]]
        ["UnblendedCost"] reportGroupBy F64.one).out.map Line.render).drop 4 =
      ["  EC2                                                          12.34",
        "  -------------------------------------------------- ---------------",
        "  Total (Sum of Services)                                      12.34",
        (Line.separator).render] := by
  have h := (grouped_total_row goRuntime "P" "UnblendedCost"
    [groupedBucket [serviceGroup "EC2" "12.34"]] []
    { Key := some "SERVICE", Typ := GroupDefinitionType.DIMENSION } [] F64.one
    (by simp) rfl).1
  have hrows : sortedServices goRuntime "UnblendedCost" "P" F64.one
      [groupedBucket [serviceGroup "EC2" "12.34"]] = [("EC2", F64.round false 1234 100)] := by
    decide!
  rw [hrows] at h
  simp only [reportGroupBy, h]
  decide!

/-- C3 as stated fails. Two services with amount 0.004 each and no markup:
both rows show 0.00, the total row shows 0.01 (the float64 sum 0.008 rounded
once), which is not the sum 0.00 of the amounts shown on the rows. -/
theorem grouped_total_row_counterexample :
    (processAndDisplayResults goRuntime "P"
        [groupedBucket [serviceGroup "A" "0.004", serviceGroup "B" "0.004"]]
        reportMetrics reportGroupBy (markupMultiplier goRuntime "")).out.map Line.render =
      ["--- P Results ---", "Cost Summary by Service (P):",
        "  Service                                              UnblendedCost",
        "  -------------------------------------------------- ---------------",
        "  A                                                             0.00",
        "  B                                                             0.00",
        "  -------------------------------------------------- ---------------",
        "  Total (Sum of Services)                                       0.01",
        (Line.separator).render] ∧
      (processAndDisplayResults goRuntime "P"
        [groupedBucket [serviceGroup "A" "0.004", serviceGroup "B" "0.004"]]
        reportMetrics reportGroupBy (markupMultiplier goRuntime "")).out =
        groupedReport "P" "UnblendedCost"
          [("A", F64.round false 4 1000), ("B", F64.round false 4 1000)] ∧
      (F64.round false 4 1000).shown = some 0 ∧
      (sumF64 [F64.round false 4 1000, F64.round false 4 1000]).shown = some 1 := by
  refine ⟨by decide!, by decide!, by decide!, by decide!⟩

/-! ### processAndDisplayResults: ungrouped mode -/

/-- C4, as the code has it. In ungrouped mode with at least one time bucket
the report is the header, the total line and the separator, and the total is
the running total, bucket by bucket from `0.0`, of
`totalCost += amount * markup` over the buckets whose `Total` has the metric
with a parseable amount; each step is the rounded product added to the total
or, where the compiler fuses it, one fused multiply-add. With the factor `1.0`
that total is the factor times the float64 sum of the amounts, on either kind
of build. For `AWS_MARGIN` "20" and two buckets with totals "100.00" and
"50.00" the total line reads 180.00, on either kind of build. -/
theorem ungrouped_total (rt : GoRuntime) (periodLabel costMetric : String)
    (results : List ResultByTime) (metrics : List String) (markup : F64)
    (hres : results ≠ []) :
    (processAndDisplayResults rt periodLabel results (costMetric :: metrics) [] markup).out =
        [Line.resultsHeader periodLabel,
          Line.total costMetric periodLabel
            ((results.filterMap (bucketAmount rt costMetric)).foldl
              (fun acc amount =>
                if rt.fuseTotal then F64.fma amount markup acc
                else F64.add acc (F64.mul amount markup)) F64.zero),
          Line.separator] ∧
      (markup = F64.one →
        (results.filterMap (bucketAmount rt costMetric)).foldl
            (fun acc amount =>
              if rt.fuseTotal then F64.fma amount markup acc
              else F64.add acc (F64.mul amount markup)) F64.zero =
          F64.mul markup (sumF64 (results.filterMap (bucketAmount rt costMetric)))) ∧
      (processAndDisplayResults goRuntime "P" [totalBucket "100.00", totalBucket "50.00"]
          reportMetrics [] (markupMultiplier goRuntime "20")).out.map Line.render =
        ["--- P Results ---", "Total UnblendedCost for P: 180.00", (Line.separator).render] ∧
      (processAndDisplayResults goRuntimeFused "P" [totalBucket "100.00", totalBucket "50.00"]
          reportMetrics [] (markupMultiplier goRuntimeFused "20")).out.map Line.render =
        ["--- P Results ---", "Total UnblendedCost for P: 180.00", (Line.separator).render] := by
  have hstep : (fun acc amount => F64.mulAdd rt.fuseTotal acc amount markup) =
      (fun acc amount =>
        if rt.fuseTotal then F64.fma amount markup acc
        else F64.add acc (F64.mul amount markup)) := by
    funext acc amount
    rfl
  have hout := ungrouped_out rt periodLabel costMetric results metrics markup hres
  rw [hstep] at hout
  refine ⟨hout, ?_, by decide!, by decide!⟩
  intro h1
  subst h1
  rw [← hstep, foldl_mul_one, F64.mul_comm_eq, F64.mul_one_eq]
  rfl

/-- Margin 20, buckets 100.00 and 50.00: the total is the float64 value 180 on
both kinds of build. Margin 10, buckets 0.02 and 2.13: the total line reads
2.36 where the product is rounded first and 2.37 where the multiply-add is
fused. -/
theorem ungrouped_total_witness :
    ((processAndDisplayResults goRuntime "P" [totalBucket "100.00", totalBucket "50.00"]
        ("UnblendedCost" :: []) [] (markupMultiplier goRuntime "20")).out =
      [Line.resultsHeader "P", Line.total "UnblendedCost" "P" (ofNat 180), Line.separator] ∧
    (processAndDisplayResults goRuntimeFused "P" [totalBucket "100.00", totalBucket "50.00"]
        ("UnblendedCost" :: []) [] (markupMultiplier goRuntimeFused "20")).out =
      [Line.resultsHeader "P", Line.total "UnblendedCost" "P" (ofNat 180), Line.separator]) ∧
    ((processAndDisplayResults goRuntime "P" [totalBucket "0.02", totalBucket "2.13"]
        ("UnblendedCost" :: []) [] (markupMultiplier goRuntime "10")).out.map Line.render =
      ["--- P Results ---", "Total UnblendedCost for P: 2.36", (Line.separator).render] ∧
    (processAndDisplayResults goRuntimeFused "P" [totalBucket "0.02", totalBucket "2.13"]
        ("UnblendedCost" :: []) [] (markupMultiplier goRuntimeFused "10")).out.map Line.render =
      ["--- P Results ---", "Total UnblendedCost for P: 2.37", (Line.separator).render]) := by
  have h1 := (ungrouped_total goRuntime "P" "UnblendedCost"
    [totalBucket "100.00", totalBucket "50.00"] [] (markupMultiplier goRuntime "20")
    (by simp)).1
  have h2 := (ungrouped_total goRuntimeFused "P" "UnblendedCost"
    [totalBucket "100.00", totalBucket "50.00"] [] (markupMultiplier goRuntimeFused "20")
    (by simp)).1
  have h3 := (ungrouped_total goRuntime "P" "UnblendedCost"
    [totalBucket "0.02", totalBucket "2.13"] [] (markupMultiplier goRuntime "10")
    (by simp)).1
  have h4 := (ungrouped_total goRuntimeFused "P" "UnblendedCost"
    [totalBucket "0.02", totalBucket "2.13"] [] (markupMultiplier goRuntimeFused "10")
    (by simp)).1
  refine ⟨⟨?_, ?_⟩, ?_, ?_⟩
  · rw [h1]; decide!
  · rw [h2]; decide!
  · rw [h3]; decide!
  · rw [h4]; decide!

/-- C4 as stated fails in float64. With `AWS_MARGIN` "10" and two buckets with
totals "0.15" and "1.00" the program prints 1.27, whether the multiply-adds are
fused or not; the factor times the sum of the amounts, 1.1 * 1.15, renders as
1.26. -/
theorem ungrouped_total_counterexample :
    (processAndDisplayResults goRuntime "P" [totalBucket "0.15", totalBucket "1.00"]
        reportMetrics [] (markupMultiplier goRuntime "10")).out.map Line.render =
      ["--- P Results ---", "Total UnblendedCost for P: 1.27", (Line.separator).render] ∧
    (processAndDisplayResults goRuntimeFused "P" [totalBucket "0.15", totalBucket "1.00"]
        reportMetrics [] (markupMultiplier goRuntimeFused "10")).out.map Line.render =
      ["--- P Results ---", "Total UnblendedCost for P: 1.27", (Line.separator).render] ∧
    [totalBucket "0.15", totalBucket "1.00"].filterMap (bucketAmount goRuntime "UnblendedCost") =
      [F64.round false 15 100, ofNat 1] ∧
    (F64.mul (markupMultiplier goRuntime "10")
      (sumF64 [F64.round false 15 100, ofNat 1])).fmt2 = "1.26" := by
  refine ⟨by decide!, by decide!, by decide!, by decide!⟩

/-- C5, as the code has it. In SERVICE mode, a group entry that has a key and
an amount for the metric that does not parse neither aborts the report nor
contributes to it. The run does not panic and ends with the separator; the
warning naming the amount, the service and the period is logged; the map
`serviceTotals` and every printed line are what they are for the same input
without that entry. Each service's total is the running total, from `0.0` and
in input order, of `serviceTotals[k] += amount * markup` over the other
entries of that service that have a parseable amount (each step the rounded
product added to the total or, where the compiler fuses it, one fused
multiply-add), and a service without such an entry has no row. The total row
shows the float64 sum, in row order from `0.0`, of the amounts of the rows,
which under the library contract are the entries of `serviceTotals`. -/
theorem grouped_unparseable_entry (rt : GoRuntime) (periodLabel costMetric : String)
    (pre post : List ResultByTime) (tp : ResultByTime) (gpre gpost : List Group) (bad : Group)
    (serviceName : String) (ks : List String) (mv : MetricValue) (amountStr : String)
    (metrics : List String) (g : GroupDefinition) (groupBy : List GroupDefinition)
    (markup : F64) (hkey : g.Key = some "SERVICE")
    (hk : bad.Keys = serviceName :: ks) (hm : bad.Metrics.lookup costMetric = some mv)
    (ha : mv.Amount = some amountStr) (hp : rt.ParseFloat amountStr = none) :
    (processAndDisplayResults rt periodLabel
        (pre ++ { tp with Groups := gpre ++ bad :: gpost } :: post)
        (costMetric :: metrics) (g :: groupBy) markup).panic = none ∧
      (processAndDisplayResults rt periodLabel
        (pre ++ { tp with Groups := gpre ++ bad :: gpost } :: post)
        (costMetric :: metrics) (g :: groupBy) markup).out.getLast? = some Line.separator ∧
      LogLine.warnService amountStr serviceName periodLabel ∈
        (processAndDisplayResults rt periodLabel
          (pre ++ { tp with Groups := gpre ++ bad :: gpost } :: post)
          (costMetric :: metrics) (g :: groupBy) markup).log ∧
      serviceTotals rt costMetric periodLabel markup
          (pre ++ { tp with Groups := gpre ++ bad :: gpost } :: post) =
        serviceTotals rt costMetric periodLabel markup
          (pre ++ { tp with Groups := gpre ++ gpost } :: post) ∧
      (processAndDisplayResults rt periodLabel
          (pre ++ { tp with Groups := gpre ++ bad :: gpost } :: post)
          (costMetric :: metrics) (g :: groupBy) markup).out =
        (processAndDisplayResults rt periodLabel
          (pre ++ { tp with Groups := gpre ++ gpost } :: post)
          (costMetric :: metrics) (g :: groupBy) markup).out ∧
      (∀ k : String,
        (serviceTotals rt costMetric periodLabel markup
            (pre ++ { tp with Groups := gpre ++ bad :: gpost } :: post)).lookup k =
          if amountsOf k (contributions rt costMetric
              (pre ++ { tp with Groups := gpre ++ gpost } :: post)) = [] then none
          else some
            ((amountsOf k (contributions rt costMetric
                (pre ++ { tp with Groups := gpre ++ gpost } :: post))).foldl
              (fun acc amount =>
                if rt.fuseService then F64.fma amount markup acc
                else F64.add acc (F64.mul amount markup)) F64.zero)) ∧
      (processAndDisplayResults rt periodLabel
          (pre ++ { tp with Groups := gpre ++ bad :: gpost } :: post)
          (costMetric :: metrics) (g :: groupBy) markup).out =
        [Line.resultsHeader periodLabel, Line.summaryTitle periodLabel,
            Line.textRow "Service" costMetric, Line.textRow ruleLeft ruleRight]
          ++ (sortedServices rt costMetric periodLabel markup
              (pre ++ { tp with Groups := gpre ++ bad :: gpost } :: post)).map
            (fun kvPair => Line.amountRow kvPair.1 kvPair.2)
          ++ [Line.textRow ruleLeft ruleRight,
            Line.amountRow "Total (Sum of Services)"
              (((sortedServices rt costMetric periodLabel markup
                  (pre ++ { tp with Groups := gpre ++ bad :: gpost } :: post)).map
                Prod.snd).foldl F64.add F64.zero),
            Line.separator] ∧
      (rt.Lawful →
        (sortedServices rt costMetric periodLabel markup
            (pre ++ { tp with Groups := gpre ++ bad :: gpost } :: post)).Perm
          (serviceTotals rt costMetric periodLabel markup
            (pre ++ { tp with Groups := gpre ++ bad :: gpost } :: post))) := by
  have hbad := groupAmount_unparseable rt costMetric bad serviceName ks mv amountStr hk hm ha hp
  have hcon := contributions_unparseable rt costMetric pre post tp gpre gpost bad hbad
  have htot : serviceTotals rt costMetric periodLabel markup
      (pre ++ { tp with Groups := gpre ++ bad :: gpost } :: post) =
      serviceTotals rt costMetric periodLabel markup
        (pre ++ { tp with Groups := gpre ++ gpost } :: post) := by
    rw [serviceTotals_eq, serviceTotals_eq, hcon]
  have hdone := processAndDisplayResults_completes rt periodLabel
    (pre ++ { tp with Groups := gpre ++ bad :: gpost } :: post) (costMetric :: metrics)
    (g :: groupBy) markup (Or.inr ⟨by simp, by simp [hkey]⟩)
  have hout := grouped_out rt periodLabel costMetric
    (pre ++ { tp with Groups := gpre ++ bad :: gpost } :: post) metrics g groupBy markup
    (by simp) hkey
  refine ⟨hdone.1, hdone.2, ?_, htot, ?_, ?_, hout, ?_⟩
  · have hw := accumulate_warns rt costMetric periodLabel markup pre post tp gpre gpost bad
      serviceName ks mv amountStr hk hm ha hp
    unfold processAndDisplayResults
    simp [hkey]
    exact hw
  · rw [hout,
      grouped_out rt periodLabel costMetric _ metrics g groupBy markup (by simp) hkey]
    unfold sortedServices
    rw [htot]
  · intro k
    rw [htot, serviceTotals_lookup]
    rfl
  · intro hrt
    exact sortedServices_perm rt hrt costMetric periodLabel markup _

/-- EC2 100.00, S3 with the amount "n/a", RDS 50.00, margin 20: the report is
the one for EC2 and RDS alone, total 180.00, and the warning is logged. -/
theorem grouped_unparseable_entry_witness :
    (processAndDisplayResults goRuntime "P"
        [groupedBucket [serviceGroup "EC2" "100.00", serviceGroup "S3" "n/a",
          serviceGroup "RDS" "50.00"]]
        ("UnblendedCost" :: []) reportGroupBy (markupMultiplier goRuntime "20")).out =
      groupedReport "P" "UnblendedCost" [("EC2", ofNat 120), ("RDS", ofNat 60)] ∧
    sumF64 [ofNat 120, ofNat 60] = ofNat 180 ∧
    LogLine.warnService "n/a" "S3" "P" ∈
      (processAndDisplayResults goRuntime "P"
        [groupedBucket [serviceGroup "EC2" "100.00", serviceGroup "S3" "n/a",
          serviceGroup "RDS" "50.00"]]
        ("UnblendedCost" :: []) reportGroupBy (markupMultiplier goRuntime "20")).log := by
  have h := grouped_unparseable_entry goRuntime "P" "UnblendedCost" [] []
    (groupedBucket []) [serviceGroup "EC2" "100.00"] [serviceGroup "RDS" "50.00"]
    (serviceGroup "S3" "n/a") "S3" [] { Amount := some "n/a", Unit := some "USD" } "n/a"
    [] { Key := some "SERVICE", Typ := GroupDefinitionType.DIMENSION } []
    (markupMultiplier goRuntime "20") rfl rfl rfl rfl (by decide)
  refine ⟨?_, by decide!, h.2.2.1⟩
  have hout := h.2.2.2.2.1
  simp only [groupedBucket, List.nil_append, List.cons_append, reportGroupBy] at hout ⊢
  rw [hout]
  decide!

/-- C5 as stated fails in float64. Services A 0.15, B 1.00 and C with the
amount "n/a", `AWS_MARGIN` "10": the total row shows 1.27, the float64 sum of
1.00 * 1.1 and 0.15 * 1.1, whether the multiply-adds are fused or not, while the
factor times the sum of the two valid amounts, 1.1 * 1.15, renders as 1.26. -/
theorem grouped_unparseable_entry_counterexample :
    ((processAndDisplayResults goRuntime "P"
        [groupedBucket [serviceGroup "A" "0.15", serviceGroup "B" "1.00",
          serviceGroup "C" "n/a"]]
        reportMetrics reportGroupBy (markupMultiplier goRuntime "10")).out.map Line.render).drop 4 =
      ["  B                                                             1.10",
        "  A                                                             0.17",
        "  -------------------------------------------------- ---------------",
        "  Total (Sum of Services)                                       1.27",
        (Line.separator).render] ∧
    ((processAndDisplayResults goRuntimeFused "P"
        [groupedBucket [serviceGroup "A" "0.15", serviceGroup "B" "1.00",
          serviceGroup "C" "n/a"]]
        reportMetrics reportGroupBy
        (markupMultiplier goRuntimeFused "10")).out.map Line.render).drop 4 =
      ["  B                                                             1.10",
        "  A                                                             0.17",
        "  -------------------------------------------------- ---------------",
        "  Total (Sum of Services)                                       1.27",
        (Line.separator).render] ∧
    contributions goRuntime "UnblendedCost"
        [groupedBucket [serviceGroup "A" "0.15", serviceGroup "B" "1.00",
          serviceGroup "C" "n/a"]] =
      [("A", F64.round false 15 100), ("B", ofNat 1)] ∧
    (F64.mul (markupMultiplier goRuntime "10")
      (sumF64 [F64.round false 15 100, ofNat 1])).fmt2 = "1.26" := by
  refine ⟨by decide!, by decide!, by decide!, by decide!⟩

end CostReporter
